import Mathlib

/-!
Verification development for the tunesleuth core
(src/tunesleuth_core/metadata.py, patterns.py, models.py).

The Python source is shallowly embedded: pure functions become Lean
functions, in-place mutation of Track records becomes explicit state
passing, Python floats become exact rationals, and the fallible parts
(float division by zero, the remote-catalog boundary) return Except.
Strings are modelled over their character lists; Python str.lower and
the regex character classes are modelled at ASCII precision, which is
exact for every input considered here.
-/

namespace Tunesleuth

/-- Python whitespace characters (ASCII range), as used by str.strip
and by the regex class backslash-s. -/
def pyWhite (c : Char) : Bool :=
  c = ' ' || c = '\t' || c = '\n' || c = '\x0d' || c = '\x0b' || c = '\x0c'

/-- Model of Python str.lower at ASCII precision. -/
def pyLower (s : String) : String :=
  String.mk (s.data.map Char.toLower)

/-- Drop the longest whitespace run at the head of a character list. -/
def dropLeadWhite : List Char → List Char
  | [] => []
  | c :: cs => if pyWhite c then dropLeadWhite cs else c :: cs

/-- Model of Python str.strip: remove leading and trailing whitespace. -/
def pyStrip (s : String) : String :=
  String.mk (((dropLeadWhite s.data.reverse).reverse) |> dropLeadWhite)

/-- Model of Python int(s) for optional-sign decimal strings: surrounding
whitespace is allowed, anything else fails (underscore digit grouping is
not modelled; no input considered here uses it). -/
def pyParseInt (s : String) : Option Int :=
  let t := pyStrip s
  let core : List Char → Option Int := fun ds =>
    if ds.isEmpty then none
    else if ds.all Char.isDigit then
      some (ds.foldl (fun acc c => acc * 10 + (c.toNat - 48)) (0 : Int))
    else none
  match t.data with
  | '-' :: rest => (core rest).map (fun n => -n)
  | '+' :: rest => core rest
  | ds => core ds

/-! ### difflib.SequenceMatcher(None, a, b)

Embedding of CPython difflib with isjunk=None and autojunk=True, the
configuration used by MusicBrainzClient._fuzzy_match.  With isjunk=None
the junk set bjunk is empty, so the two junk-extension loops of
find_longest_match never fire; they are omitted with that justification.
The two non-junk extension loops are embedded. -/

/-- Ascending list of the indices at which character c occurs in b
(difflib b2j entry for c). -/
def indicesOf (c : Char) (b : List Char) : List Nat :=
  (List.range b.length).filter (fun i => b.getD i ' ' = c)

/-- The b2j table after the autojunk purge: for len(b) greater than or
equal to 200, characters occurring more than len(b)/100 + 1 times are
dropped from the table. -/
def b2jFn (b : List Char) (c : Char) : List Nat :=
  if b.length ≥ 200 ∧ (indicesOf c b).length > b.length / 100 + 1 then []
  else indicesOf c b

/-- State of the best match during find_longest_match:
(besti, bestj, bestsize). -/
abbrev BestT := Nat × Nat × Nat

/-- Inner loop of find_longest_match over the candidate j positions of
the current character a[i]: j below blo is skipped, j at or above bhi
stops the scan, otherwise newj2len[j] = j2len[j-1] + 1 and the best
triple is updated on strict improvement. -/
def flmInner (i blo bhi : Nat) (prevRow : Nat → Nat) :
    List Nat → (Nat → Nat) → BestT → (Nat → Nat) × BestT
  | [], newRow, best => (newRow, best)
  | j :: rest, newRow, best =>
    if j < blo then flmInner i blo bhi prevRow rest newRow best
    else if j ≥ bhi then (newRow, best)
    else
      let k := (if j = 0 then 0 else prevRow (j - 1)) + 1
      let newRow' := fun x => if x = j then k else newRow x
      let best' := if k > best.2.2 then (i + 1 - k, j + 1 - k, k) else best
      flmInner i blo bhi prevRow rest newRow' best'

/-- Outer loop of find_longest_match over the rows alo..ahi-1. -/
def flmOuter (a : List Char) (b2j : Char → List Nat) (blo bhi : Nat) :
    List Nat → (Nat → Nat) → BestT → BestT
  | [], _, best => best
  | i :: rest, row, best =>
    let (row', best') := flmInner i blo bhi row (b2j (a.getD i ' ')) (fun _ => 0) best
    flmOuter a b2j blo bhi rest row' best'

/-- Left extension loop of find_longest_match (the non-junk one; the
junk variant is vacuous since bjunk is empty for isjunk=None). -/
def flmExtendLeft (a b : List Char) (alo blo : Nat) : Nat → BestT → BestT
  | 0, best => best
  | fuel + 1, (bi, bj, bs) =>
    if bi > alo ∧ bj > blo ∧ a.getD (bi - 1) ' ' = b.getD (bj - 1) ' '
       ∧ bi - 1 < a.length ∧ bj - 1 < b.length then
      flmExtendLeft a b alo blo fuel (bi - 1, bj - 1, bs + 1)
    else (bi, bj, bs)

/-- Right extension loop of find_longest_match (non-junk variant). -/
def flmExtendRight (a b : List Char) (ahi bhi : Nat) : Nat → BestT → BestT
  | 0, best => best
  | fuel + 1, (bi, bj, bs) =>
    if bi + bs < ahi ∧ bj + bs < bhi ∧ a.getD (bi + bs) ' ' = b.getD (bj + bs) ' '
       ∧ bi + bs < a.length ∧ bj + bs < b.length then
      flmExtendRight a b ahi bhi fuel (bi, bj, bs + 1)
    else (bi, bj, bs)

/-- find_longest_match(alo, ahi, blo, bhi) of difflib. -/
def findLongestMatch (a b : List Char) (b2j : Char → List Nat)
    (alo ahi blo bhi : Nat) : BestT :=
  let best := flmOuter a b2j blo bhi ((List.range ahi).drop alo) (fun _ => 0)
    (alo, blo, 0)
  let best := flmExtendLeft a b alo blo best.1 best
  flmExtendRight a b ahi bhi ahi best

/-- Total size of the matching blocks of get_matching_blocks: recursive
divide and conquer around the longest match; the left (right) window is
explored only when it is nonempty on both sides, as in the source queue
conditions.  Fuel bounds the recursion depth; ahi - alo + 1 always
suffices since each subwindow is strictly smaller on the a side. -/
def matchTotal (a b : List Char) (b2j : Char → List Nat) :
    Nat → Nat → Nat → Nat → Nat → Nat
  | 0, _, _, _, _ => 0
  | fuel + 1, alo, ahi, blo, bhi =>
    let (i, j, k) := findLongestMatch a b b2j alo ahi blo bhi
    if k = 0 then 0
    else
      k + (if alo < i ∧ blo < j then matchTotal a b b2j fuel alo i blo j else 0)
        + (if i + k < ahi ∧ j + k < bhi then matchTotal a b b2j fuel (i + k) ahi (j + k) bhi
           else 0)

/-- Total matching size over the full windows, the matches sum of
get_matching_blocks. -/
def matchCount (a b : List Char) : Nat :=
  matchTotal a b (b2jFn b) (a.length + 1) 0 a.length 0 b.length

/-- SequenceMatcher(None, a, b).ratio(): 2*M / (len(a)+len(b)) with the
difflib _calculate_ratio convention that a total length of zero gives
1.0. -/
def seqRatio (a b : List Char) : ℚ :=
  if a.length + b.length = 0 then 1
  else (2 * matchCount a b : ℚ) / (a.length + b.length)

/-- MusicBrainzClient._fuzzy_match: return 0.0 when either raw input is
falsy (the empty string), otherwise lowercase and strip both and take
the SequenceMatcher ratio. -/
def fuzzyMatch (str1 str2 : String) : ℚ :=
  if str1.isEmpty || str2.isEmpty then 0
  else seqRatio (pyStrip (pyLower str1)).data (pyStrip (pyLower str2)).data

/-- Truthiness of an optional string argument, as tested by Python
`if search_artist:` — None and the empty string are falsy. -/
def optTruthy : Option String → Bool
  | none => false
  | some s => !s.isEmpty

/-- MusicBrainzClient._calculate_confidence: a scores list holding the
weighted per-field similarities that were actually appended, divided by
the sum of the first len(scores) entries of [2.0, 1.5, 1.0], capped at
1.0. -/
def calculateConfidence (resultTitle resultArtist resultAlbum : String)
    (searchTitle : String) (searchArtist searchAlbum : Option String) : ℚ :=
  let scores : List ℚ := [fuzzyMatch resultTitle searchTitle * 2]
  let scores := if optTruthy searchArtist then
      scores ++ [fuzzyMatch resultArtist (searchArtist.getD "") * (3 / 2)]
    else scores
  let scores := if optTruthy searchAlbum then
      scores ++ [fuzzyMatch resultAlbum (searchAlbum.getD "")]
    else scores
  if scores.isEmpty then 0
  else min (scores.sum / (([2, 3 / 2, 1] : List ℚ).take scores.length).sum) 1

theorem seqRatio_eval (a b : List Char) (m n1 n2 : Nat)
    (hm : matchCount a b = m) (h1 : a.length = n1) (h2 : b.length = n2) :
    seqRatio a b = if n1 + n2 = 0 then 1 else (2 * m : ℚ) / (n1 + n2) := by
  subst hm h1 h2; rfl

theorem fuzzyMatch_eval (s1 s2 : String) (m n1 n2 : Nat)
    (hne : (s1.isEmpty || s2.isEmpty) = false)
    (hm : matchCount (pyStrip (pyLower s1)).data (pyStrip (pyLower s2)).data = m)
    (h1 : (pyStrip (pyLower s1)).data.length = n1)
    (h2 : (pyStrip (pyLower s2)).data.length = n2) :
    fuzzyMatch s1 s2 = if n1 + n2 = 0 then 1 else (2 * m : ℚ) / (n1 + n2) := by
  unfold fuzzyMatch
  rw [hne]
  simp only [Bool.false_eq_true, if_false]
  exact seqRatio_eval _ _ m n1 n2 hm h1 h2

/-! ### Metadata matcher: MetadataMatch, candidate parsing, search -/

/-- MetadataMatch dataclass of metadata.py; the confidence float is an
exact rational here. -/
structure MetadataMatch where
  title : String
  artist : String
  album : String
  trackNumber : Option Int := none
  year : Option Int := none
  genre : Option String := none
  confidence : ℚ := 0
  source : String := "musicbrainz"
  recordingId : Option String := none
  releaseId : Option String := none
  artistId : Option String := none
  deriving Repr, DecidableEq

/-- A MusicBrainz artist dict as read by _parse_recording: the name and
id fields it looks up. -/
structure MBArtist where
  name : Option String := none
  mbid : Option String := none
  deriving Repr, DecidableEq

/-- An artist-credit entry; the artist field is none when the entry has
no artist key (or is not a dict). -/
structure MBCredit where
  artist : Option MBArtist := none
  deriving Repr, DecidableEq

/-- A track entry of a medium track list (the number field). -/
structure MBTrackEntry where
  number : Option String := none
  deriving Repr, DecidableEq

/-- A medium of a release; trackList is none when the medium dict has
no track-list key. -/
structure MBMedium where
  trackList : Option (List MBTrackEntry) := none
  deriving Repr, DecidableEq

/-- A release dict as read by _parse_recording. -/
structure MBRelease where
  title : Option String := none
  mbid : Option String := none
  date : Option String := none
  mediumList : Option (List MBMedium) := none
  deriving Repr, DecidableEq

/-- A recording dict as read by _parse_recording: each Option none
models an absent key. -/
structure Recording where
  title : Option String := none
  mbid : Option String := none
  artistCredit : Option (List MBCredit) := none
  releaseList : Option (List MBRelease) := none
  deriving Repr, DecidableEq

/-- A raw candidate record returned by the remote catalog.  wellFormed
carries the fields _parse_recording reads; malformed models a record
whose dynamic structure raises KeyError, TypeError or IndexError inside
_parse_recording (for example an artist-credit that is not a list of
dicts), which the except clause turns into None. -/
inductive RawRecording where
  | wellFormed (r : Recording)
  | malformed
  deriving Repr, DecidableEq

/-- Year extraction of _parse_recording: if the release has a date that
is truthy and at least 4 characters long, int() of its first 4
characters, with ValueError dropped. -/
def extractYear (rel : MBRelease) : Option Int :=
  match rel.date with
  | none => none
  | some d => if !d.isEmpty ∧ d.length ≥ 4 then pyParseInt (d.take 4) else none

/-- Track-number extraction of _parse_recording: the number string of
the first track of the first medium of the release, int() with
ValueError dropped; empty number strings are falsy and skipped. -/
def extractTrackNumber (rel : MBRelease) : Option Int :=
  match rel.mediumList with
  | some (m :: _) =>
    match m.trackList with
    | some (tk :: _) =>
      let s := tk.number.getD ""
      if !s.isEmpty then pyParseInt s else none
    | _ => none
  | _ => none

/-- MusicBrainzClient._parse_recording on a well-formed recording dict;
a malformed record takes the except branch and yields none. -/
def parseRecording (raw : RawRecording) (searchTitle : String)
    (searchArtist searchAlbum : Option String) : Option MetadataMatch :=
  match raw with
  | .malformed => none
  | .wellFormed r =>
    let title := r.title.getD ""
    let recordingId := r.mbid.getD ""
    let (artist, artistId) :=
      match r.artistCredit with
      | some (c :: _) =>
        match c.artist with
        | some a => (a.name.getD "", a.mbid)
        | none => ("", none)
      | _ => ("", none)
    let (album, releaseId, year, trackNumber) :=
      match r.releaseList with
      | some (rel :: _) =>
        (rel.title.getD "", rel.mbid, extractYear rel, extractTrackNumber rel)
      | _ => ("", none, none, none)
    let confidence := calculateConfidence title artist album
      searchTitle searchArtist searchAlbum
    some { title := title, artist := artist, album := album,
           trackNumber := trackNumber, year := year,
           confidence := confidence, source := "musicbrainz",
           recordingId := some recordingId, releaseId := releaseId,
           artistId := artistId }

/-- Stable descending insertion by a rational key: the element moves
past every entry with larger or equal key, so earlier list entries keep
their relative order, matching Python stable list.sort with a key
function and reverse=True. -/
def insertDescBy (key : α → ℚ) (m : α) : List α → List α
  | [] => [m]
  | x :: xs => if key m < key x ∨ key m = key x
      then x :: insertDescBy key m xs else m :: x :: xs

/-- Stable sort by a descending rational key. -/
def sortDescBy (key : α → ℚ) (l : List α) : List α :=
  l.foldr (insertDescBy key) []

/-- matches.sort(key=lambda m: m.confidence, reverse=True). -/
def sortByConfDesc (l : List MetadataMatch) : List MetadataMatch :=
  sortDescBy (fun m => m.confidence) l

/-- Transport failure at the query boundary: musicbrainzngs raises
WebServiceError, which search_track catches. -/
inductive WebServiceErr where
  | err
  deriving Repr, DecidableEq

/-- MusicBrainzClient.search_track as a function of the remote
response.  The limit argument is only forwarded to the remote search
call (modelled by the response being whatever the catalog returned for
that limit); the local code does not truncate.  A WebServiceError is
converted to the empty list; otherwise every record of recording-list
is parsed, Nones are dropped, and the matches are sorted by descending
confidence.  The rate-limiter wait and the query-string construction
have no effect on the returned value and are not part of this value
model. -/
def searchTrack (_title : String) (_artist _album : Option String)
    (_limit : Nat) (response : Except WebServiceErr (List RawRecording)) :
    List MetadataMatch :=
  match response with
  | .error _ => []
  | .ok recs =>
    sortByConfDesc (recs.filterMap
      (fun r => parseRecording r _title _artist _album))

/-! ### Rate limiter -/

/-- RateLimiter state: the minimum inter-call interval and the time of
the last call (None before the first call).  Times are rationals. -/
structure RateLimiter where
  minInterval : ℚ
  lastCall : Option ℚ := none
  deriving Repr, DecidableEq

/-- RateLimiter.__init__: 1.0 / calls_per_second raises
ZeroDivisionError exactly when the rate is 0 (Python float division by
zero raises; any nonzero rate, including negative ones, succeeds). -/
def RateLimiter.init (callsPerSecond : ℚ) : Except Unit RateLimiter :=
  if callsPerSecond = 0 then .error ()
  else .ok { minInterval := 1 / callsPerSecond, lastCall := none }

/-- Verification infrastructure for the self-match analysis of
SequenceMatcher: position j of x is unpurged when the b2j table still
maps its character to it after the autojunk purge. -/
def unpB (x : List Char) (j : Nat) : Bool :=
  (b2jFn x (x.getD j ' ')).contains j

/-- Length of the maximal unpurged run ending at position j. -/
def runv (x : List Char) : Nat → Nat
  | 0 => if unpB x 0 then 1 else 0
  | j + 1 => if unpB x (j + 1) then runv x j + 1 else 0

/-- RateLimiter.wait with explicit time passing: given the current
time, return the sleep duration and the new state; last_call is set to
the time after the sleep (time.time() called once the sleep ends,
assuming an exact sleep). -/
def RateLimiter.waitAt (rl : RateLimiter) (now : ℚ) : ℚ × RateLimiter :=
  match rl.lastCall with
  | none => (0, { rl with lastCall := some now })
  | some t =>
    let elapsed := now - t
    let sleep := if elapsed < rl.minInterval then rl.minInterval - elapsed else 0
    (sleep, { rl with lastCall := some (now + sleep) })

/-! ### Regex engine for the concrete patterns of patterns.py

The filename and folder regexes of PatternDetector are sequences of
single-character classes, greedy or lazy repetitions of such classes,
case-insensitive literals, and an end anchor, so they are embedded as
atom lists run by a backtracking matcher.  Candidate lengths for each
atom are tried in Python preference order (greedy longest-first, lazy
shortest-first), and for a fixed choice the rest of the atoms is fully
explored before moving on, which is exactly the backtracking order of
the re module.  Character classes are at ASCII precision. -/

/-- One regex atom. -/
inductive Atom where
  | cls (p : Char → Bool)
  | starCls (p : Char → Bool)
  | lazyPlus (p : Char → Bool) (g : Nat)
  | repRange (p : Char → Bool) (lo hi : Nat) (g : Option Nat)
  | plusCls (p : Char → Bool)
  | litCI (s : List Char)
  | endAnchor

/-- Length of the longest prefix of the input made of p-characters. -/
def charRun (p : Char → Bool) : List Char → Nat
  | [] => 0
  | c :: cs => if p c then charRun p cs + 1 else 0

/-- First successful result of f over the candidates, in order. -/
def firstSome (f : α → Option β) : List α → Option β
  | [] => none
  | a :: rest =>
    match f a with
    | some b => some b
    | none => firstSome f rest

/-- Run an atom list against the input, returning the captures (group
index paired with captured characters, in group order) of the first
match in preference order, or none.  A match consumes a prefix of the
input (re.Pattern.match semantics); the endAnchor atom embeds a final
dollar, which matches at the end of the input or before a lone final
newline. -/
def matchGo : List Atom → List Char → Option (List (Nat × List Char))
  | [], _ => some []
  | .endAnchor :: rest, input =>
    if input = [] ∨ input = ['\n'] then matchGo rest input else none
  | .cls p :: rest, input =>
    match input with
    | [] => none
    | c :: cs => if p c then matchGo rest cs else none
  | .litCI s :: rest, input =>
    if s.length ≤ input.length
       ∧ (s.zip (input.take s.length)).all (fun pr => pr.2.toLower = pr.1) then
      matchGo rest (input.drop s.length)
    else none
  | .starCls p :: rest, input =>
    let n := charRun p input
    firstSome (fun k => matchGo rest (input.drop k)) ((List.range (n + 1)).reverse)
  | .plusCls p :: rest, input =>
    let n := charRun p input
    firstSome (fun k => matchGo rest (input.drop k))
      (((List.range n).map (· + 1)).reverse)
  | .lazyPlus p g :: rest, input =>
    let n := charRun p input
    firstSome
      (fun k => (matchGo rest (input.drop k)).map (fun caps => (g, input.take k) :: caps))
      ((List.range n).map (· + 1))
  | .repRange p lo hi g :: rest, input =>
    let n := min hi (charRun p input)
    firstSome
      (fun k => (matchGo rest (input.drop k)).map (fun caps =>
        match g with
        | some gi => (gi, input.take k) :: caps
        | none => caps))
      (((List.range (n + 1 - lo)).map (· + lo)).reverse)

/-- Boolean match of an atom list at the start of a string. -/
def reMatches (atoms : List Atom) (s : String) : Bool :=
  (matchGo atoms s.data).isSome

/-- Captured groups of the first match, as strings. -/
def reGroups (atoms : List Atom) (s : String) : Option (List (Nat × String)) :=
  (matchGo atoms s.data).map (fun caps => caps.map (fun gc => (gc.1, String.mk gc.2)))

/-- Look up group i of a capture list. -/
def groupGet (caps : List (Nat × String)) (i : Nat) : String :=
  match caps.find? (fun gc => gc.1 = i) with
  | some gc => gc.2
  | none => ""

/-- re.search semantics for a boolean test: try to match at every start
position. -/
def reSearch (atoms : List Atom) (s : String) : Bool :=
  (List.range (s.data.length + 1)).any
    (fun i => (matchGo atoms (s.data.drop i)).isSome)

/-- ASCII digit class (backslash-d). -/
def isDig (c : Char) : Bool := c.isDigit

/-- Dot class: any character except a newline. -/
def dotAny (c : Char) : Bool := c ≠ '\n'

/-- The class [-._]. -/
def sepDDU (c : Char) : Bool := c = '-' || c = '.' || c = '_'

/-- The class [-_]. -/
def sepDU (c : Char) : Bool := c = '-' || c = '_'

/-- The class [([] of the folder-year pattern. -/
def openBr (c : Char) : Bool := c = '(' || c = '['

/-- The class [)]] of the folder-year pattern. -/
def closeBr (c : Char) : Bool := c = ')' || c = ']'

/-- Pattern types of patterns.py (PatternType enum); numberedLead is
NUMBERED_PREFIX of the source. -/
inductive PatternType where
  | trackArtistTitle
  | trackTitle
  | artistAlbumTitle
  | artistTitle
  | titleOnly
  | folderArtistAlbum
  | folderArtistAlbumDisc
  | folderAlbumOnly
  | folderFlat
  | compilation
  | numberedLead
  | yearInFolder
  deriving Repr, DecidableEq

/-- FILENAME_PATTERNS: the regex list of each filename pattern type,
compiled with re.IGNORECASE (which is inert here: the patterns hold no
cased literals).  Types without filename regexes map to []. -/
def filenamePatterns : PatternType → List (List Atom)
  | .trackArtistTitle =>
    [ [Atom.repRange isDig 1 3 (some 0), Atom.starCls pyWhite, Atom.cls sepDDU,
       Atom.starCls pyWhite, Atom.lazyPlus dotAny 1, Atom.starCls pyWhite,
       Atom.cls sepDU, Atom.starCls pyWhite, Atom.lazyPlus dotAny 2, Atom.endAnchor],
      [Atom.repRange isDig 1 3 (some 0), Atom.cls (fun c => c = '.'),
       Atom.starCls pyWhite, Atom.lazyPlus dotAny 1, Atom.starCls pyWhite,
       Atom.cls sepDU, Atom.starCls pyWhite, Atom.lazyPlus dotAny 2, Atom.endAnchor] ]
  | .trackTitle =>
    [ [Atom.repRange isDig 1 3 (some 0), Atom.starCls pyWhite, Atom.cls sepDDU,
       Atom.starCls pyWhite, Atom.lazyPlus dotAny 1, Atom.endAnchor],
      [Atom.repRange isDig 1 3 (some 0), Atom.cls (fun c => c = '.'),
       Atom.starCls pyWhite, Atom.lazyPlus dotAny 1, Atom.endAnchor] ]
  | .artistAlbumTitle =>
    [ [Atom.lazyPlus dotAny 0, Atom.starCls pyWhite, Atom.cls sepDU,
       Atom.starCls pyWhite, Atom.lazyPlus dotAny 1, Atom.starCls pyWhite,
       Atom.cls sepDU, Atom.starCls pyWhite, Atom.lazyPlus dotAny 2, Atom.endAnchor] ]
  | .artistTitle =>
    [ [Atom.lazyPlus dotAny 0, Atom.starCls pyWhite, Atom.cls sepDU,
       Atom.starCls pyWhite, Atom.lazyPlus dotAny 1, Atom.endAnchor] ]
  | .titleOnly =>
    [ [Atom.lazyPlus dotAny 0, Atom.endAnchor] ]
  | _ => []

/-- FOLDER_YEAR_PATTERN: a 4-digit year inside parentheses or brackets,
used with re.search. -/
def folderYearAtoms : List Atom :=
  [Atom.cls openBr, Atom.starCls pyWhite, Atom.repRange isDig 4 4 (some 0),
   Atom.starCls pyWhite, Atom.cls closeBr]

/-- DISC_PATTERN alternatives (disc, cd, disk, each case-insensitive,
followed by optional whitespace and digits); the boolean search result
equals the disjunction of searching each alternative. -/
def discAtomAlts : List (List Atom) :=
  [ [Atom.litCI ['d', 'i', 's', 'c'], Atom.starCls pyWhite, Atom.plusCls isDig],
    [Atom.litCI ['c', 'd'], Atom.starCls pyWhite, Atom.plusCls isDig],
    [Atom.litCI ['d', 'i', 's', 'k'], Atom.starCls pyWhite, Atom.plusCls isDig] ]

/-- DISC_PATTERN.search as a boolean. -/
def discSearch (s : String) : Bool :=
  discAtomAlts.any (fun ats => reSearch ats s)

/-- The numbered-prefix test of _detect_special_patterns: re.match of
1 to 3 digits, optional whitespace, then one of -._ (a prefix match,
no end anchor). -/
def numberedLeadAtoms : List Atom :=
  [Atom.repRange isDig 1 3 none, Atom.starCls pyWhite, Atom.cls sepDDU]

/-- Fixed specificity order in which _detect_filename_patterns tries
the pattern types. -/
def filenameOrder : List PatternType :=
  [.trackArtistTitle, .trackTitle, .artistAlbumTitle, .artistTitle, .titleOnly]

/-- PatternDetector._matches_filename_pattern: any regex of the type
matches the stem. -/
def matchesFilenamePattern (pt : PatternType) (stem : String) : Bool :=
  (filenamePatterns pt).any (fun ats => reMatches ats stem)

/-- Classification of one stem: the first pattern type in the fixed
order whose regex set matches (the for-loop with break). -/
def classifyStem (stem : String) : Option PatternType :=
  filenameOrder.find? (fun pt => matchesFilenamePattern pt stem)

/-! ### Data model (models.py) -/

/-- A filesystem path as its list of components (pathlib.PurePath
parts). -/
abbrev PathT := List String

/-- Render a path as a string with slash separators (str of a posix
path). -/
def pathStr (p : PathT) : String := String.intercalate "/" p

/-- Parent path: drop the final component (Path.parent). -/
def parentOf (p : PathT) : PathT := p.dropLast

/-- Final component of a path (Path.name; the empty string when there
is none). -/
def pathName (p : PathT) : String := p.getLastD ""

/-- Is a a leading segment sequence of b. -/
def segPre : List String → List String → Bool
  | [], _ => true
  | _ :: _, [] => false
  | a :: as, b :: bs => a = b && segPre as bs

/-- Path.relative_to: strip the root components from the front; none
models the ValueError raised when the root is not an ancestor.  When
the path equals the root the result is the empty part list, matching
the empty parts tuple of the dot path. -/
def relativeTo (p root : PathT) : Option (List String) :=
  if segPre root p then some (p.drop root.length) else none

/-- Index of the last dot of a component, if any. -/
def lastDotIdx (l : List Char) : Option Nat :=
  ((List.range l.length).filter (fun i => l.getD i ' ' = '.')).getLast?

/-- pathlib stem of a final component: the part before the last dot,
except that a leading dot or a trailing dot is not a suffix marker. -/
def pyStem (name : String) : String :=
  match lastDotIdx name.data with
  | some i =>
    if 0 < i ∧ i < name.data.length - 1 then String.mk (name.data.take i) else name
  | none => name

/-- Track dataclass of models.py.  The modified_date field (a datetime
never read by the core logic) is omitted; duration is an exact
rational. -/
structure Track where
  path : PathT
  filename : String
  fileSize : Nat := 0
  title : Option String := none
  artist : Option String := none
  album : Option String := none
  albumArtist : Option String := none
  trackNumber : Option Int := none
  trackTotal : Option Int := none
  discNumber : Option Int := none
  discTotal : Option Int := none
  year : Option Int := none
  genre : Option String := none
  durationSeconds : Option ℚ := none
  bitrate : Option Int := none
  inferredArtist : Option String := none
  inferredAlbum : Option String := none
  inferredTitle : Option String := none
  inferredTrackNumber : Option Int := none
  deriving Repr, DecidableEq

/-- Stem of a track filename: track.path.stem. -/
def stemOf (t : Track) : String := pyStem (pathName t.path)

/-- Track.display_title: self.title or self.inferred_title or
self.filename — a Python or-chain, so a present-but-empty tag string is
falsy and skipped. -/
def displayTitle (t : Track) : String :=
  if optTruthy t.title then t.title.getD ""
  else if optTruthy t.inferredTitle then t.inferredTitle.getD ""
  else t.filename

/-- Track.display_artist with its constant fallback. -/
def displayArtist (t : Track) : String :=
  if optTruthy t.artist then t.artist.getD ""
  else if optTruthy t.inferredArtist then t.inferredArtist.getD ""
  else "Unknown Artist"

/-- Track.display_album with its constant fallback. -/
def displayAlbum (t : Track) : String :=
  if optTruthy t.album then t.album.getD ""
  else if optTruthy t.inferredAlbum then t.inferredAlbum.getD ""
  else "Unknown Album"

/-- Library of models.py: the scan root and the insertion-ordered track
list.  The lazy artist and album grouping caches and the scan date are
not read by the detector or matcher and are omitted; get_folders below
recomputes its grouping on every call exactly as the source does. -/
structure Library where
  rootPath : PathT
  tracks : List Track
  deriving Repr, DecidableEq

/-- Append a track to the folder group of its key, keeping dict
insertion order for first-seen keys. -/
def addToFolder (acc : List (PathT × List Track)) (key : PathT) (t : Track) :
    List (PathT × List Track) :=
  match acc with
  | [] => [(key, [t])]
  | (k, ts) :: rest =>
    if k = key then (k, ts ++ [t]) :: rest else (k, ts) :: addToFolder rest key t

/-- Library.get_folders: tracks grouped by parent folder, keys in
first-appearance order, each group in track order. -/
def getFolders (tracks : List Track) : List (PathT × List Track) :=
  tracks.foldl (fun acc t => addToFolder acc (parentOf t.path) t) []

/-- Track list of one folder key of a get_folders grouping. -/
def folderTracks (folders : List (PathT × List Track)) (f : PathT) : List Track :=
  match folders.find? (fun g => g.1 = f) with
  | some g => g.2
  | none => []

/-! ### Pattern detector (patterns.py) -/

/-- PatternMatch dataclass (the two percentage and label accessors are
presentation-only and omitted). -/
structure PatternMatch where
  patternType : PatternType
  confidence : ℚ
  matchingTracks : Nat
  totalTracks : Nat
  description : String
  explanation : String
  examples : List String := []
  deriving Repr, DecidableEq

/-- PatternAnalysis value: the three pattern lists (the library
back-reference of the source dataclass is represented by the updated
Library that analyze returns alongside). -/
structure PatternAnalysis where
  filenameMatches : List PatternMatch := []
  folderMatches : List PatternMatch := []
  specialMatches : List PatternMatch := []
  deriving Repr, DecidableEq

/-- PatternAnalysis.all_patterns: concatenation of the three lists
sorted by descending confidence. -/
def allPatterns (a : PatternAnalysis) : List PatternMatch :=
  sortDescBy (fun m => m.confidence)
    (a.filenameMatches ++ a.folderMatches ++ a.specialMatches)

/-- PatternAnalysis.primary_filename_pattern: max by confidence, which
in Python keeps the first of several maxima. -/
def primaryFilenamePattern (l : List PatternMatch) : Option PatternMatch :=
  match l with
  | [] => none
  | x :: xs =>
    some (xs.foldl (fun acc y => if y.confidence > acc.confidence then y else acc) x)

/-- _get_pattern_description. -/
def patternDescription : PatternType → String
  | .artistTitle => "Artist - Title"
  | .artistAlbumTitle => "Artist - Album - Title"
  | .trackTitle => "## - Title (numbered)"
  | .trackArtistTitle => "## - Artist - Title"
  | .titleOnly => "Title only"
  | .folderArtistAlbum => "Artist / Album structure"
  | .folderArtistAlbumDisc => "Artist / Album / Disc structure"
  | .folderAlbumOnly => "Album folders only"
  | .folderFlat => "Flat (single folder)"
  | .compilation => "Compilation / Various Artists"
  | .numberedLead => "Track number prefix"
  | .yearInFolder => "Year in folder name"

/-- Round half to even on a rational, modelling the .0f float format
(exact apart from binary float artifacts, which no claim depends on). -/
def roundHalfEven (q : ℚ) : Int :=
  let f := ⌊q⌋
  let r := q - f
  if r < 1 / 2 then f
  else if r > 1 / 2 then f + 1
  else if f % 2 = 0 then f else f + 1

/-- The percent text of count/total formatted with .0f. -/
def pctStr (count total : Nat) : String :=
  toString (roundHalfEven ((count : ℚ) * 100 / total))

/-- _generate_filename_explanation. -/
def filenameExplanation (pt : PatternType) (count total : Nat) : String :=
  toString count ++ " of " ++ toString total ++ " files (" ++ pctStr count total
    ++ "%) match the \x27" ++ patternDescription pt ++ "\x27 naming pattern."

/-- The bucket of one pattern type: the tracks, in order, whose first
matching type in the specificity order is this type.  This is the
pattern_counts entry the per-track classification loop with break
builds. -/
def patternBucket (pt : PatternType) (tracks : List Track) : List Track :=
  tracks.filter (fun t => classifyStem (stemOf t) = some pt)

/-- PatternDetector._detect_filename_patterns: one PatternMatch per
nonempty bucket passing the confidence-or-count gate, emitted in the
dict order of FILENAME_PATTERNS (the specificity order) and then sorted
by descending confidence. -/
def detectFilenamePatterns (tracks : List Track) : List PatternMatch :=
  let total := tracks.length
  sortDescBy (fun m => m.confidence) (filenameOrder.filterMap (fun pt =>
    let bucket := patternBucket pt tracks
    if bucket.isEmpty then none
    else
      let count := bucket.length
      let conf : ℚ := (count : ℚ) / (total : ℚ)
      if conf ≥ 1 / 10 ∨ count ≥ 5 then
        some { patternType := pt, confidence := conf, matchingTracks := count,
               totalTracks := total, description := patternDescription pt,
               explanation := filenameExplanation pt count total,
               examples := (bucket.take 3).map (fun t => t.filename) }
      else none))

/-- Folders of a given relative depth under the root, in key order;
folders outside the root (relative_to raises) are skipped. -/
def depthFolders (folders : List (PathT × List Track)) (root : PathT) (d : Nat) :
    List PathT :=
  (folders.map (fun g => g.1)).filter (fun f =>
    match relativeTo f root with
    | some parts => parts.length = d
    | none => false)

/-- Total number of tracks held by the given folder keys. -/
def tracksUnder (folders : List (PathT × List Track)) (fs : List PathT) : Nat :=
  (fs.map (fun f => (folderTracks folders f).length)).sum

/-- PatternDetector._detect_folder_patterns. -/
def detectFolderPatterns (lib : Library) : List PatternMatch :=
  let folders := getFolders lib.tracks
  let totalFolders := folders.length
  let totalTracks := lib.tracks.length
  if totalFolders = 0 then []
  else if totalFolders = 1 then
    [ { patternType := .folderFlat, confidence := 1,
        matchingTracks := totalTracks, totalTracks := totalTracks,
        description := "Flat folder structure",
        explanation := "All " ++ toString totalTracks
          ++ " tracks are in a single folder.",
        examples := [pathStr (folders.headD ([], [])).1] } ]
  else
    let d2 := depthFolders folders lib.rootPath 2
    let m2 : List PatternMatch :=
      if !d2.isEmpty then
        let depth2Tracks := tracksUnder folders d2
        let conf : ℚ := (depth2Tracks : ℚ) / (totalTracks : ℚ)
        if conf ≥ 1 / 2 then
          let artistCount := ((d2.map (fun f => pathName (parentOf f))).dedup).length
          [ { patternType := .folderArtistAlbum, confidence := conf,
              matchingTracks := depth2Tracks, totalTracks := totalTracks,
              description := "Artist / Album folder structure",
              explanation := "Detected " ++ toString artistCount
                ++ " artist folders containing " ++ toString d2.length
                ++ " album folders with " ++ toString depth2Tracks ++ " tracks.",
              examples := (d2.take 3).map (fun f =>
                pathStr ((relativeTo f lib.rootPath).getD [])) } ]
        else []
      else []
    let d3 := depthFolders folders lib.rootPath 3
    let discFolders := d3.filter (fun f => discSearch (pathName f))
    let m3 : List PatternMatch :=
      if !discFolders.isEmpty then
        let discTracks := tracksUnder folders discFolders
        let conf : ℚ := (discTracks : ℚ) / (totalTracks : ℚ)
        if conf ≥ 1 / 10 then
          [ { patternType := .folderArtistAlbumDisc, confidence := conf,
              matchingTracks := discTracks, totalTracks := totalTracks,
              description := "Artist / Album / Disc folder structure",
              explanation := "Found " ++ toString discFolders.length
                ++ " disc folders containing " ++ toString discTracks ++ " tracks.",
              examples := (discFolders.take 3).map (fun f =>
                pathStr ((relativeTo f lib.rootPath).getD [])) } ]
        else []
      else []
    let d1 := depthFolders folders lib.rootPath 1
    let m1 : List PatternMatch :=
      if !d1.isEmpty ∧ d1.length > 1 then
        let depth1Tracks := tracksUnder folders d1
        let conf : ℚ := (depth1Tracks : ℚ) / (totalTracks : ℚ)
        if conf ≥ 1 / 2 then
          [ { patternType := .folderAlbumOnly, confidence := conf,
              matchingTracks := depth1Tracks, totalTracks := totalTracks,
              description := "Album-only folder structure",
              explanation := "Found " ++ toString d1.length
                ++ " album folders directly under root with "
                ++ toString depth1Tracks ++ " tracks.",
              examples := (d1.take 3).map pathName } ]
        else []
      else []
    sortDescBy (fun m => m.confidence) (m2 ++ m3 ++ m1)

/-- Substring containment (the Python in operator on strings, for
nonempty needles). -/
def strContains (hay needle : String) : Bool :=
  (List.range (hay.data.length + 1)).any
    (fun i => (hay.data.drop i).take needle.data.length = needle.data)

/-- The variety-indicator substrings of _detect_special_patterns. -/
def vaIndicators : List String :=
  ["various artists", "va ", "compilation", "soundtrack", "ost"]

/-- The best-known artist of a track for diversity counting: the Python
or-chain t.artist or t.inferred_artist, kept only when truthy. -/
def bestArtist (t : Track) : Option String :=
  let v : Option String := if optTruthy t.artist then t.artist else t.inferredArtist
  match v with
  | some s => if s.isEmpty then none else some s
  | none => none

/-- PatternDetector._detect_special_patterns.  The artist-diversity
comparison len(artists) greater-or-equal len(tracks)*0.7 is evaluated
in exact rationals (the source compares floats; no claim depends on the
difference). -/
def detectSpecialPatterns (lib : Library) : List PatternMatch :=
  let folders := getFolders lib.tracks
  let totalTracks := lib.tracks.length
  let numbered := lib.tracks.filter (fun t => reMatches numberedLeadAtoms (stemOf t))
  let mNum : List PatternMatch :=
    if !numbered.isEmpty then
      let conf : ℚ := (numbered.length : ℚ) / (totalTracks : ℚ)
      if conf ≥ 1 / 4 then
        [ { patternType := .numberedLead, confidence := conf,
            matchingTracks := numbered.length, totalTracks := totalTracks,
            description := "Track number prefix",
            explanation := toString numbered.length ++ " of " ++ toString totalTracks
              ++ " files (" ++ pctStr numbered.length totalTracks
              ++ "%) have track number prefixes.",
            examples := (numbered.take 3).map (fun t => t.filename) } ]
      else []
    else []
  let yearFolders := (folders.map (fun g => g.1)).filter
    (fun f => reSearch folderYearAtoms (pathName f))
  let mYear : List PatternMatch :=
    if !yearFolders.isEmpty then
      let yearTracks := tracksUnder folders yearFolders
      let conf : ℚ := (yearTracks : ℚ) / (totalTracks : ℚ)
      if conf ≥ 1 / 10 then
        [ { patternType := .yearInFolder, confidence := conf,
            matchingTracks := yearTracks, totalTracks := totalTracks,
            description := "Year in folder name",
            explanation := toString yearFolders.length
              ++ " folders include release year, covering "
              ++ toString yearTracks ++ " tracks.",
            examples := (yearFolders.take 3).map pathName } ]
      else []
    else []
  let compFromName := (folders.map (fun g => g.1)).filter (fun f =>
    vaIndicators.any (fun ind => strContains (pyLower (pathName f)) ind))
  let compFolders := folders.foldl (fun acc g =>
    if g.2.length ≥ 5
       ∧ ((g.2.filterMap bestArtist).dedup.length : ℚ) ≥ (g.2.length : ℚ) * (7 / 10)
       ∧ !acc.contains g.1
    then acc ++ [g.1] else acc) compFromName
  let mComp : List PatternMatch :=
    if !compFolders.isEmpty then
      let compTracks := tracksUnder folders compFolders
      let conf : ℚ := min ((compTracks : ℚ) / (totalTracks : ℚ)) 1
      if conf ≥ 1 / 20 then
        [ { patternType := .compilation, confidence := conf,
            matchingTracks := compTracks, totalTracks := totalTracks,
            description := "Compilation / Various Artists",
            explanation := "Detected " ++ toString compFolders.length
              ++ " potential compilation albums with "
              ++ toString compTracks ++ " tracks.",
            examples := (compFolders.take 3).map pathName } ]
      else []
    else []
  sortDescBy (fun m => m.confidence) (mNum ++ mYear ++ mComp)

/-- The Python or on an optional string against a string default
(x or y with string y). -/
def pyOrS (a : Option String) (b : String) : String :=
  match a with
  | some s => if s.isEmpty then b else s
  | none => b

/-- PatternDetector._infer_from_folder: fill artist and album (only
when not already truthy) from the first one or two components of the
parent folder relative to the root. -/
def inferFromFolder (root : PathT) (t : Track) : Track :=
  match relativeTo (parentOf t.path) root with
  | none => t
  | some parts =>
    if parts.length ≥ 2 then
      { t with inferredArtist := some (pyOrS t.inferredArtist (parts.getD 0 "")),
               inferredAlbum := some (pyOrS t.inferredAlbum (parts.getD 1 "")) }
    else if parts.length = 1 then
      { t with inferredAlbum := some (pyOrS t.inferredAlbum (parts.getD 0 "")) }
    else t

/-- PatternDetector._safe_int (the TypeError arm cannot arise: the
captured group is always a string). -/
def safeInt (v : String) : Option Int := pyParseInt v

/-- The capture-group write-back of _apply_inferences for one pattern
type: populate the inferred fields of the track according to the
captured groups of that type (folder-based inference follows for the
track+title and title-only types). -/
def applyCaps (pt : PatternType) (root : PathT) (caps : List (Nat × String))
    (t : Track) : Track :=
  match pt with
  | .trackArtistTitle =>
    if caps.length ≥ 3 then
      { t with inferredTrackNumber := safeInt (groupGet caps 0),
               inferredArtist := some (pyStrip (groupGet caps 1)),
               inferredTitle := some (pyStrip (groupGet caps 2)) }
    else t
  | .trackTitle =>
    if caps.length ≥ 2 then
      inferFromFolder root
        { t with inferredTrackNumber := safeInt (groupGet caps 0),
                 inferredTitle := some (pyStrip (groupGet caps 1)) }
    else t
  | .artistAlbumTitle =>
    if caps.length ≥ 3 then
      { t with inferredArtist := some (pyStrip (groupGet caps 0)),
               inferredAlbum := some (pyStrip (groupGet caps 1)),
               inferredTitle := some (pyStrip (groupGet caps 2)) }
    else t
  | .artistTitle =>
    if caps.length ≥ 2 then
      { t with inferredArtist := some (pyStrip (groupGet caps 0)),
               inferredTitle := some (pyStrip (groupGet caps 1)) }
    else t
  | .titleOnly =>
    if caps.length ≥ 1 then
      inferFromFolder root { t with inferredTitle := some (pyStrip (groupGet caps 0)) }
    else t
  | _ => t

/-- The per-track body of _apply_inferences: run the regex list of the
primary pattern type against the stem, and on the first match populate
the inferred fields according to the captured groups of that type. -/
def applyTrack (pt : PatternType) (root : PathT) (t : Track) : Track :=
  match firstSome (fun ats => reGroups ats (stemOf t)) (filenamePatterns pt) with
  | none => t
  | some caps => applyCaps pt root caps t

/-- PatternDetector._apply_inferences: only the primary filename
pattern drives inference; folder and special patterns never mutate
tracks. -/
def applyInferences (lib : Library) (filenameMatches : List PatternMatch) :
    List Track :=
  match primaryFilenamePattern filenameMatches with
  | none => lib.tracks
  | some pm => lib.tracks.map (applyTrack pm.patternType lib.rootPath)

/-- PatternDetector.analyze: the three detection passes on the incoming
library, then the inference application; the returned Library carries
the updated tracks (the in-place mutation of the source). -/
def analyze (lib : Library) : PatternAnalysis × Library :=
  if lib.tracks.isEmpty then ({}, lib)
  else
    let fns := detectFilenamePatterns lib.tracks
    let fols := detectFolderPatterns lib
    let sps := detectSpecialPatterns lib
    let tracks2 := applyInferences lib fns
    ({ filenameMatches := fns, folderMatches := fols, specialMatches := sps },
     { lib with tracks := tracks2 })

end Tunesleuth

namespace Tunesleuth

/-! ### Theorems for the claims -/

/-- C10: constructing the rate limiter raises a division-by-zero error
exactly for a zero rate; for every positive rate construction succeeds
with min_interval = 1/rate and a lastCall of None, and the first wait
call sleeps for zero time. -/
theorem C10_rate_limiter :
    RateLimiter.init 0 = .error () ∧
    (∀ r : ℚ, 0 < r →
      RateLimiter.init r = .ok { minInterval := 1 / r, lastCall := none }) ∧
    (∀ mi now : ℚ,
      (RateLimiter.waitAt { minInterval := mi, lastCall := none } now).1 = 0) := by
  refine ⟨rfl, ?_, ?_⟩
  · intro r hr
    unfold RateLimiter.init
    rw [if_neg (by exact ne_of_gt hr)]
  · intro mi now
    rfl

/-- Witness for C10 at rate 2 and first call at time 5. -/
theorem C10_rate_limiter_witness :
    RateLimiter.init 2 = .ok { minInterval := 1 / 2, lastCall := none } ∧
    (RateLimiter.waitAt { minInterval := 1 / 2, lastCall := none } 5).1 = 0 :=
  ⟨C10_rate_limiter.2.1 2 (by norm_num), C10_rate_limiter.2.2 (1 / 2) 5⟩

theorem flmOuter_empty_b2j (a : List Char) (b2j : Char → List Nat)
    (blo bhi : Nat) (hb : ∀ c, b2j c = []) :
    ∀ (is : List Nat) (row : Nat → Nat) (best : BestT),
      flmOuter a b2j blo bhi is row best = best := by
  intro is
  induction is with
  | nil => intro row best; rfl
  | cons i rest ih =>
    intro row best
    unfold flmOuter
    rw [hb]
    exact ih _ _

theorem flmExtendLeft_base (a b : List Char) (alo blo : Nat) :
    ∀ (fuel bs : Nat), flmExtendLeft a b alo blo fuel (alo, blo, bs) = (alo, blo, bs) := by
  intro fuel bs
  cases fuel with
  | zero => rfl
  | succ f =>
    unfold flmExtendLeft
    rw [if_neg]
    intro h
    exact absurd h.1 (lt_irrefl alo)

theorem flmExtendRight_stuck (a b : List Char) (ahi bhi : Nat)
    (bi bj bs : Nat) (h : ¬ bj + bs < bhi) :
    ∀ fuel, flmExtendRight a b ahi bhi fuel (bi, bj, bs) = (bi, bj, bs) := by
  intro fuel
  cases fuel with
  | zero => rfl
  | succ f =>
    unfold flmExtendRight
    rw [if_neg]
    intro hc
    exact h hc.2.1

theorem matchCount_nil_left (b : List Char) : matchCount [] b = 0 := rfl

theorem matchCount_nil_right (a : List Char) : matchCount a [] = 0 := by
  have hfind : findLongestMatch a [] (b2jFn []) 0 a.length 0 0 = (0, 0, 0) := by
    unfold findLongestMatch
    rw [flmOuter_empty_b2j a (b2jFn []) 0 0 (fun c => rfl)]
    show flmExtendRight a [] a.length 0 a.length
      (flmExtendLeft a [] 0 0 0 (0, 0, 0)) = (0, 0, 0)
    rw [flmExtendLeft_base]
    exact flmExtendRight_stuck a [] a.length 0 0 0 0 (by simp) a.length
  show matchTotal a [] (b2jFn []) (a.length + 1) 0 a.length 0 0 = 0
  simp only [matchTotal]
  rw [hfind]
  simp

theorem seqRatio_nil_left (b : List Char) (hb : b ≠ []) : seqRatio [] b = 0 := by
  unfold seqRatio
  rw [matchCount_nil_left]
  rw [if_neg (by simpa using hb)]
  simp

theorem seqRatio_nil_right (a : List Char) (ha : a ≠ []) : seqRatio a [] = 0 := by
  unfold seqRatio
  rw [matchCount_nil_right]
  rw [if_neg (by simpa using ha)]
  simp

/-- C2 counterexample: two whitespace-only strings are nonempty before
trimming (so they pass the falsiness guard), both are empty after
trimming, and their similarity is 1.0, not 0.0 (the SequenceMatcher
ratio of two empty sequences is defined as 1.0). -/
theorem C2_counterexample :
    fuzzyMatch " " "\t" = 1 ∧ (1 : ℚ) ≠ 0 ∧
    " ".isEmpty = false ∧ "\t".isEmpty = false ∧
    (pyStrip (pyLower " ")).data = [] ∧ (pyStrip (pyLower "\t")).data = [] := by
  refine ⟨?_, by norm_num, by decide, by decide, by decide, by decide⟩
  rw [fuzzyMatch_eval " " "\t" 0 0 0 (by decide) (by decide) (by decide) (by decide)]
  norm_num

/-- C2 (amended): the fuzzy similarity returns 0.0 whenever either raw
input is the empty string, and whenever exactly one side is empty after
lowercasing and trimming; but when both inputs are nonempty and both
become empty after trimming (whitespace-only strings), it returns 1.0,
not 0.0. -/
theorem C2_fuzzy_empty :
    ∀ s1 s2 : String,
      ((s1.isEmpty = true ∨ s2.isEmpty = true) → fuzzyMatch s1 s2 = 0) ∧
      (s1.isEmpty = false → s2.isEmpty = false →
        (pyStrip (pyLower s1)).data = [] → (pyStrip (pyLower s2)).data = [] →
        fuzzyMatch s1 s2 = 1) ∧
      (s1.isEmpty = false → s2.isEmpty = false →
        (pyStrip (pyLower s1)).data = [] → (pyStrip (pyLower s2)).data ≠ [] →
        fuzzyMatch s1 s2 = 0) ∧
      (s1.isEmpty = false → s2.isEmpty = false →
        (pyStrip (pyLower s1)).data ≠ [] → (pyStrip (pyLower s2)).data = [] →
        fuzzyMatch s1 s2 = 0) := by
  intro s1 s2
  refine ⟨?_, ?_, ?_, ?_⟩
  · intro h
    unfold fuzzyMatch
    rcases h with h | h <;> simp [h]
  · intro h1 h2 h3 h4
    unfold fuzzyMatch
    rw [h1, h2]
    simp only [Bool.or_self, Bool.false_eq_true, if_false]
    rw [h3, h4]
    rfl
  · intro h1 h2 h3 h4
    unfold fuzzyMatch
    rw [h1, h2]
    simp only [Bool.or_self, Bool.false_eq_true, if_false]
    rw [h3]
    exact seqRatio_nil_left _ h4
  · intro h1 h2 h3 h4
    unfold fuzzyMatch
    rw [h1, h2]
    simp only [Bool.or_self, Bool.false_eq_true, if_false]
    rw [h4]
    exact seqRatio_nil_right _ h3

/-- Witness for C2 (amended): the empty-side clause and the one-sided
clause at concrete strings. -/
theorem C2_fuzzy_empty_witness :
    fuzzyMatch "" "abc" = 0 ∧ fuzzyMatch " " "abc" = 0 :=
  ⟨(C2_fuzzy_empty "" "abc").1 (Or.inl (by decide)),
   (C2_fuzzy_empty " " "abc").2.2.1 (by decide) (by decide) (by decide) (by decide)⟩

/-- C9 counterexample: the fuzzy similarity is not symmetric — the
greedy longest-block decomposition of SequenceMatcher depends on the
argument order, and on this pair the two orders give 1/2 and 1/4. -/
theorem C9_counterexample :
    fuzzyMatch "abxcdyef" "efzabwcd" = 1 / 2 ∧
    fuzzyMatch "efzabwcd" "abxcdyef" = 1 / 4 ∧
    (1 / 2 : ℚ) ≠ 1 / 4 := by
  refine ⟨?_, ?_, by norm_num⟩
  · rw [fuzzyMatch_eval _ _ 4 8 8 (by decide) (by decide) (by decide) (by decide)]
    norm_num
  · rw [fuzzyMatch_eval _ _ 2 8 8 (by decide) (by decide) (by decide) (by decide)]
    norm_num

/-- C7 counterexample: a tag title that is present but empty is falsy,
so the display title falls through to the inferred title; and the
artist and album fallbacks are the fixed strings Unknown Artist and
Unknown Album, not values derived from the path (two tracks with
different paths share the same fallback). -/
theorem C7_counterexample :
    displayTitle { path := ["m", "x.mp3"], filename := "x.mp3",
                   title := some "", inferredTitle := some "X" } = "X" ∧
    ("X" : String) ≠ "" ∧
    displayArtist { path := ["m", "a.mp3"], filename := "a.mp3" } = "Unknown Artist" ∧
    displayArtist { path := ["n", "b.mp3"], filename := "b.mp3" } = "Unknown Artist" ∧
    displayAlbum { path := ["m", "a.mp3"], filename := "a.mp3" } = "Unknown Album" := by
  refine ⟨by decide, by decide, by decide, by decide, by decide⟩

/-- C7 (amended): each display view returns the tag field when it is
present and nonempty, else the inferred field when that is present and
nonempty, else a fallback — the filename for the title view and the
constants Unknown Artist and Unknown Album for the other two. -/
theorem C7_display_views :
    ∀ t : Track,
      ((optTruthy t.title = true → displayTitle t = t.title.getD "") ∧
       (optTruthy t.title = false → optTruthy t.inferredTitle = true →
         displayTitle t = t.inferredTitle.getD "") ∧
       (optTruthy t.title = false → optTruthy t.inferredTitle = false →
         displayTitle t = t.filename)) ∧
      ((optTruthy t.artist = true → displayArtist t = t.artist.getD "") ∧
       (optTruthy t.artist = false → optTruthy t.inferredArtist = true →
         displayArtist t = t.inferredArtist.getD "") ∧
       (optTruthy t.artist = false → optTruthy t.inferredArtist = false →
         displayArtist t = "Unknown Artist")) ∧
      ((optTruthy t.album = true → displayAlbum t = t.album.getD "") ∧
       (optTruthy t.album = false → optTruthy t.inferredAlbum = true →
         displayAlbum t = t.inferredAlbum.getD "") ∧
       (optTruthy t.album = false → optTruthy t.inferredAlbum = false →
         displayAlbum t = "Unknown Album")) := by
  intro t
  unfold displayTitle displayArtist displayAlbum
  refine ⟨⟨?_, ?_, ?_⟩, ⟨?_, ?_, ?_⟩, ⟨?_, ?_, ?_⟩⟩ <;>
    (intros; simp_all)

/-- Witness for C7 (amended) on a track with no tag or inferred
fields. -/
theorem C7_display_views_witness :
    displayTitle { path := ["m", "x.mp3"], filename := "x.mp3" } = "x.mp3" ∧
    displayArtist { path := ["m", "x.mp3"], filename := "x.mp3" } = "Unknown Artist" ∧
    displayAlbum { path := ["m", "x.mp3"], filename := "x.mp3" } = "Unknown Album" :=
  ⟨(C7_display_views _).1.2.2 (by decide) (by decide),
   (C7_display_views _).2.1.2.2 (by decide) (by decide),
   (C7_display_views _).2.2.2.2 (by decide) (by decide)⟩

theorem mem_insertDescBy (key : α → ℚ) (m : α) :
    ∀ l (y : α), y ∈ insertDescBy key m l ↔ y = m ∨ y ∈ l := by
  intro l
  induction l with
  | nil => intro y; simp [insertDescBy]
  | cons x xs ih =>
    intro y
    unfold insertDescBy
    by_cases hc : key m < key x ∨ key m = key x
    · rw [if_pos hc]
      simp only [List.mem_cons, ih]
      try tauto
    · rw [if_neg hc]
      simp only [List.mem_cons]
      try tauto

theorem pairwise_insertDescBy (key : α → ℚ) (m : α) :
    ∀ l, l.Pairwise (fun a b => key b ≤ key a) →
      (insertDescBy key m l).Pairwise (fun a b => key b ≤ key a) := by
  intro l
  induction l with
  | nil => intro _; simp [insertDescBy]
  | cons x xs ih =>
    intro h
    rw [List.pairwise_cons] at h
    obtain ⟨hx, hxs⟩ := h
    unfold insertDescBy
    by_cases hc : key m < key x ∨ key m = key x
    · rw [if_pos hc]
      rw [List.pairwise_cons]
      constructor
      · intro y hy
        rw [mem_insertDescBy] at hy
        rcases hy with rfl | hy
        · rcases hc with hc | hc
          · exact le_of_lt hc
          · exact le_of_eq hc
        · exact hx y hy
      · exact ih hxs
    · rw [if_neg hc]
      push_neg at hc
      have hxm : key x ≤ key m := hc.1
      rw [List.pairwise_cons]
      constructor
      · intro y hy
        rcases List.mem_cons.mp hy with rfl | hy
        · exact hxm
        · exact le_trans (hx y hy) hxm
      · rw [List.pairwise_cons]
        exact ⟨hx, hxs⟩

theorem sortDescBy_pairwise (key : α → ℚ) :
    ∀ l : List α, (sortDescBy key l).Pairwise (fun a b => key b ≤ key a) := by
  intro l
  induction l with
  | nil => simp [sortDescBy]
  | cons x xs ih => exact pairwise_insertDescBy key x _ ih

theorem insertDescBy_length (key : α → ℚ) (m : α) :
    ∀ l, (insertDescBy key m l).length = l.length + 1 := by
  intro l
  induction l with
  | nil => rfl
  | cons x xs ih =>
    unfold insertDescBy
    by_cases hc : key m < key x ∨ key m = key x
    · rw [if_pos hc]; simp [ih]
    · rw [if_neg hc]; simp

theorem sortDescBy_length (key : α → ℚ) :
    ∀ l : List α, (sortDescBy key l).length = l.length := by
  intro l
  induction l with
  | nil => rfl
  | cons x xs ih =>
    show (insertDescBy key x (sortDescBy key xs)).length = xs.length + 1
    rw [insertDescBy_length, ih]

/-- C3 counterexample: the local code never truncates — when the
catalog returns two parseable records for a requested limit of one, the
returned list has two entries. -/
theorem C3_counterexample :
    (searchTrack "t" none none 1
      (.ok [RawRecording.wellFormed {}, RawRecording.wellFormed {}])).length = 2 ∧
    1 < 2 := by
  constructor
  · show (sortByConfDesc (List.filterMap
      (fun r => parseRecording r "t" none none)
      [RawRecording.wellFormed {}, RawRecording.wellFormed {}])).length = 2
    rw [sortByConfDesc, sortDescBy_length]
    rfl
  · norm_num

/-- C3 (amended): the returned list is always sorted by non-increasing
confidence, but the requested limit is only forwarded to the remote
catalog: the local result length equals the number of successfully
parsed candidate records, so it is bounded by the limit only when the
catalog itself honors it. -/
theorem C3_search_sorted_not_truncated :
    (∀ (title : String) (artist album : Option String) (limit : Nat)
       (resp : Except WebServiceErr (List RawRecording)),
      (searchTrack title artist album limit resp).Pairwise
        (fun x y => y.confidence ≤ x.confidence)) ∧
    (∀ (title : String) (artist album : Option String) (limit : Nat)
       (recs : List RawRecording),
      (searchTrack title artist album limit (.ok recs)).length =
        (recs.filterMap (fun r => parseRecording r title artist album)).length) := by
  constructor
  · intro title artist album limit resp
    cases resp with
    | error e => simp [searchTrack]
    | ok recs => exact sortDescBy_pairwise _ _
  · intro title artist album limit recs
    show (sortByConfDesc _).length = _
    rw [sortByConfDesc, sortDescBy_length]

/-- C5: a transport or service error from the remote catalog is
converted into an empty result list (the query boundary never
propagates it), and a malformed candidate record anywhere in the batch
is skipped without affecting the other records. -/
theorem C5_error_and_malformed :
    (∀ (title : String) (artist album : Option String) (limit : Nat),
      searchTrack title artist album limit (.error .err) = []) ∧
    (∀ (title : String) (artist album : Option String) (limit : Nat)
       (pre post : List RawRecording),
      searchTrack title artist album limit (.ok (pre ++ RawRecording.malformed :: post)) =
        searchTrack title artist album limit (.ok (pre ++ post))) := by
  constructor
  · intro title artist album limit
    rfl
  · intro title artist album limit pre post
    show sortByConfDesc _ = sortByConfDesc _
    congr 1
    rw [List.filterMap_append, List.filterMap_append, List.filterMap_cons]
    rfl

/-- C4: filename classification tries the pattern types in the fixed
specificity order track+artist+title, track+title, artist+album+title,
artist+title, title-only, stopping at the first type whose regex set
matches, so a track lands in exactly one bucket; in particular a stem
matching both the numbered track+title form and the generic artist+title
form is classified under a numbered form and never under artist+title. -/
theorem C4_classification_order :
    (∀ stem, matchesFilenamePattern .trackArtistTitle stem = true →
      classifyStem stem = some .trackArtistTitle) ∧
    (∀ stem, matchesFilenamePattern .trackArtistTitle stem = false →
      matchesFilenamePattern .trackTitle stem = true →
      classifyStem stem = some .trackTitle) ∧
    (∀ stem, matchesFilenamePattern .trackArtistTitle stem = false →
      matchesFilenamePattern .trackTitle stem = false →
      matchesFilenamePattern .artistAlbumTitle stem = true →
      classifyStem stem = some .artistAlbumTitle) ∧
    (∀ stem, matchesFilenamePattern .trackArtistTitle stem = false →
      matchesFilenamePattern .trackTitle stem = false →
      matchesFilenamePattern .artistAlbumTitle stem = false →
      matchesFilenamePattern .artistTitle stem = true →
      classifyStem stem = some .artistTitle) ∧
    (∀ stem, matchesFilenamePattern .trackArtistTitle stem = false →
      matchesFilenamePattern .trackTitle stem = false →
      matchesFilenamePattern .artistAlbumTitle stem = false →
      matchesFilenamePattern .artistTitle stem = false →
      matchesFilenamePattern .titleOnly stem = true →
      classifyStem stem = some .titleOnly) ∧
    (∀ stem, matchesFilenamePattern .trackTitle stem = true →
      matchesFilenamePattern .artistTitle stem = true →
      (classifyStem stem = some .trackArtistTitle ∨
        classifyStem stem = some .trackTitle) ∧
      classifyStem stem ≠ some .artistTitle) ∧
    (∀ (ts : List Track) (t : Track) (pt1 pt2 : PatternType),
      t ∈ patternBucket pt1 ts → t ∈ patternBucket pt2 ts → pt1 = pt2) := by
  have hcls : ∀ stem pt, classifyStem stem = some pt →
      matchesFilenamePattern pt stem = true := by
    intro stem pt h
    have := List.find?_some h
    simpa using this
  refine ⟨?_, ?_, ?_, ?_, ?_, ?_, ?_⟩
  · intro stem h1
    simp [classifyStem, filenameOrder, List.find?, h1]
  · intro stem h1 h2
    simp [classifyStem, filenameOrder, List.find?, h1, h2]
  · intro stem h1 h2 h3
    simp [classifyStem, filenameOrder, List.find?, h1, h2, h3]
  · intro stem h1 h2 h3 h4
    simp [classifyStem, filenameOrder, List.find?, h1, h2, h3, h4]
  · intro stem h1 h2 h3 h4 h5
    simp [classifyStem, filenameOrder, List.find?, h1, h2, h3, h4, h5]
  · intro stem htt hat
    cases h1 : matchesFilenamePattern .trackArtistTitle stem with
    | true =>
      have hc : classifyStem stem = some .trackArtistTitle := by
        simp [classifyStem, filenameOrder, List.find?, h1]
      exact ⟨Or.inl hc, by simp [hc]⟩
    | false =>
      have hc : classifyStem stem = some .trackTitle := by
        simp [classifyStem, filenameOrder, List.find?, h1, htt]
      exact ⟨Or.inr hc, by simp [hc]⟩
  · intro ts t pt1 pt2 h1 h2
    have m1 := (List.mem_filter.mp h1).2
    have m2 := (List.mem_filter.mp h2).2
    simp only [decide_eq_true_eq] at m1 m2
    rw [m1] at m2
    exact Option.some.inj m2

/-- Witness for C4 at the stem 01 - Hello, which matches both the
numbered track+title form and the generic artist+title form. -/
theorem C4_classification_order_witness :
    (classifyStem "01 - Hello" = some .trackArtistTitle ∨
      classifyStem "01 - Hello" = some .trackTitle) ∧
    classifyStem "01 - Hello" ≠ some .artistTitle :=
  C4_classification_order.2.2.2.2.2.1 "01 - Hello" (by decide) (by decide)

/-- C6: when all tracks of a nonempty library share a single containing
folder, folder classification emits exactly the flat-structure match at
confidence exactly 1.0 covering every track, and nothing else. -/
theorem C6_flat_single_folder :
    ∀ lib : Library, lib.tracks ≠ [] → (getFolders lib.tracks).length = 1 →
      detectFolderPatterns lib =
        [ { patternType := .folderFlat, confidence := 1,
            matchingTracks := lib.tracks.length,
            totalTracks := lib.tracks.length,
            description := "Flat folder structure",
            explanation := "All " ++ toString lib.tracks.length
              ++ " tracks are in a single folder.",
            examples := [pathStr ((getFolders lib.tracks).headD ([], [])).1] } ] := by
  intro lib h1 h2
  simp only [detectFolderPatterns]
  rw [h2]
  simp

/-- Witness for C6 on a concrete two-track single-folder library. -/
theorem C6_flat_single_folder_witness :
    detectFolderPatterns
      { rootPath := ["m"],
        tracks := [ { path := ["m", "a.mp3"], filename := "a.mp3" },
                    { path := ["m", "b.mp3"], filename := "b.mp3" } ] } =
      [ { patternType := .folderFlat, confidence := 1,
          matchingTracks := 2, totalTracks := 2,
          description := "Flat folder structure",
          explanation := "All 2 tracks are in a single folder.",
          examples := ["m"] } ] := by
  have h := C6_flat_single_folder
    { rootPath := ["m"],
      tracks := [ { path := ["m", "a.mp3"], filename := "a.mp3" },
                  { path := ["m", "b.mp3"], filename := "b.mp3" } ] }
    (by decide) (by decide)
  rw [h]
  decide

theorem mem_indicesOf {c : Char} {x : List Char} {j : Nat} :
    j ∈ indicesOf c x ↔ j < x.length ∧ x.getD j ' ' = c := by
  unfold indicesOf
  simp [List.mem_filter, List.mem_range]

theorem mem_b2jFn {c : Char} {x : List Char} {j : Nat}
    (h : j ∈ b2jFn x c) : j ∈ indicesOf c x := by
  unfold b2jFn at h
  split at h
  · exact absurd h (List.not_mem_nil j)
  · exact h

theorem b2jFn_pairwise (x : List Char) (c : Char) :
    (b2jFn x c).Pairwise (· < ·) := by
  unfold b2jFn
  split
  · exact List.Pairwise.nil
  · exact (List.pairwise_lt_range x.length).filter _

theorem unpB_iff {x : List Char} {j : Nat} :
    unpB x j = true ↔ j ∈ b2jFn x (x.getD j ' ') := by
  unfold unpB
  simp [List.contains, List.elem_iff]

theorem unpB_of_mem {c : Char} {x : List Char} {j : Nat}
    (h : j ∈ b2jFn x c) : unpB x j = true := by
  have hj := mem_b2jFn h
  have hc := (mem_indicesOf.mp hj).2
  rw [unpB_iff, hc]
  exact h

theorem mem_of_unpB {x : List Char} {i : Nat} (h : unpB x i = true) :
    i ∈ b2jFn x (x.getD i ' ') := unpB_iff.mp h

theorem b2jFn_eq_nil_of_not_unpB {x : List Char} {i : Nat}
    (hi : i < x.length) (h : unpB x i = false) :
    b2jFn x (x.getD i ' ') = [] := by
  cases hb : b2jFn x (x.getD i ' ') with
  | nil => rfl
  | cons j0 rest =>
    exfalso
    have hmem : i ∈ b2jFn x (x.getD i ' ') := by
      unfold b2jFn at hb ⊢
      split at hb
      · exact absurd hb (by simp)
      · rw [if_neg (by assumption)]
        exact mem_indicesOf.mpr ⟨hi, rfl⟩
    rw [← unpB_iff] at hmem
    rw [hmem] at h
    exact absurd h (by simp)

theorem runv_le (x : List Char) : ∀ j, runv x j ≤ j + 1 := by
  intro j
  induction j with
  | zero => unfold runv; split <;> omega
  | succ j ih => unfold runv; split <;> omega

theorem flmInner_cons (i blo bhi : Nat) (prevRow : Nat → Nat) (j : Nat)
    (rest : List Nat) (newRow : Nat → Nat) (best : BestT)
    (h1 : ¬ j < blo) (h2 : ¬ j ≥ bhi) :
    flmInner i blo bhi prevRow (j :: rest) newRow best =
      flmInner i blo bhi prevRow rest
        (fun y => if y = j then (if j = 0 then 0 else prevRow (j - 1)) + 1 else newRow y)
        (if (if j = 0 then 0 else prevRow (j - 1)) + 1 > best.2.2
         then (i + 1 - ((if j = 0 then 0 else prevRow (j - 1)) + 1),
               j + 1 - ((if j = 0 then 0 else prevRow (j - 1)) + 1),
               (if j = 0 then 0 else prevRow (j - 1)) + 1)
         else best) := by
  conv_lhs => rw [flmInner]
  rw [if_neg h1, if_neg h2]

/-- Inner-loop invariant for the self-match: processing any sorted
sublist of the candidate positions of row i keeps the best triple
diagonal and within bounds, dominates all runs ending before row i, and
leaves the new row bounded by the run lengths with the diagonal entry
exact. -/
theorem flmInner_self
    (x : List Char) (i : Nat) (hi : i < x.length)
    (prevRow : Nat → Nat) (rprev : Nat)
    (hA : ∀ j, prevRow j ≤ runv x j)
    (hB : ∀ j, prevRow j ≤ rprev)
    (hC : (if i = 0 then 0 else prevRow (i - 1)) = rprev)
    (hR : (if i = 0 then 0 else runv x (i - 1)) = rprev) :
    ∀ (js : List Nat),
      (∀ j ∈ js, j ∈ b2jFn x (x.getD i ' ')) →
      js.Pairwise (· < ·) →
      ∀ (newRow : Nat → Nat) (d s : Nat),
        (∀ j, newRow j ≤ runv x j) →
        (∀ j, newRow j ≤ runv x i) →
        d + s ≤ x.length →
        (∀ j, j < i → runv x j ≤ s) →
        (i ∈ js ∨ runv x i ≤ s) →
        (i ∈ js ∨ newRow i = runv x i) →
        ∃ row' d' s',
          flmInner i 0 x.length prevRow js newRow (d, d, s) = (row', (d', d', s')) ∧
          d' + s' ≤ x.length ∧ s ≤ s' ∧
          (∀ j, j < i → runv x j ≤ s') ∧ runv x i ≤ s' ∧
          (∀ j, row' j ≤ runv x j) ∧ (∀ j, row' j ≤ runv x i) ∧
          row' i = runv x i := by
  intro js
  induction js with
  | nil =>
    intro _ _ newRow d s hN1 hN2 hds hG hDiag hNi
    refine ⟨newRow, d, s, rfl, hds, le_refl s, hG, ?_, hN1, hN2, ?_⟩
    · rcases hDiag with h | h
      · exact absurd h (List.not_mem_nil i)
      · exact h
    · rcases hNi with h | h
      · exact absurd h (List.not_mem_nil i)
      · exact h
  | cons j rest ih =>
    intro hsub hsort newRow d s hN1 hN2 hds hG hDiag hNi
    have hjmem : j ∈ b2jFn x (x.getD i ' ') := hsub j (List.mem_cons_self j rest)
    obtain ⟨hjn, hjc⟩ := mem_indicesOf.mp (mem_b2jFn hjmem)
    have hunpj : unpB x j = true := unpB_of_mem hjmem
    have hunpi : unpB x i = true := by
      by_contra hfalse
      have h0 : unpB x i = false := by
        cases hu : unpB x i
        · rfl
        · exact absurd hu hfalse
      rw [b2jFn_eq_nil_of_not_unpB hi h0] at hjmem
      exact absurd hjmem (List.not_mem_nil j)
    have hrvi : runv x i = rprev + 1 := by
      cases i with
      | zero =>
        have hr0 : rprev = 0 := by simpa using hR.symm
        subst hr0
        unfold runv
        rw [if_pos hunpi]
      | succ i' =>
        unfold runv
        rw [if_pos hunpi]
        have : runv x i' = rprev := by simpa using hR
        rw [this]
    -- the computed chain value of this cell
    set k := (if j = 0 then 0 else prevRow (j - 1)) + 1 with hkdef
    have hkcol : k ≤ runv x j := by
      by_cases hj0 : j = 0
      · subst hj0
        have hz : runv x 0 = 1 := by simp [runv, hunpj]
        rw [hkdef, hz]
        simp
      · obtain ⟨j', rfl⟩ := Nat.exists_eq_succ_of_ne_zero hj0
        have hsucc : runv x (j' + 1) = runv x j' + 1 := by simp [runv, hunpj]
        rw [hkdef, hsucc]
        rw [if_neg (by omega)]
        simp only [Nat.succ_sub_one]
        exact Nat.add_le_add_right (hA j') 1
    have hkrow : k ≤ runv x i := by
      rw [hrvi, hkdef]
      have : (if j = 0 then 0 else prevRow (j - 1)) ≤ rprev := by
        split
        · exact Nat.zero_le rprev
        · exact hB (j - 1)
      omega
    have hkdiag : j = i → k = runv x i := by
      intro hji
      subst hji
      rw [hrvi, hkdef, hC]
    rw [flmInner_cons i 0 x.length prevRow j rest newRow (d, d, s)
      (Nat.not_lt_zero j) (not_le.mpr hjn)]
    rw [← hkdef]
    by_cases hgt : k > (d, d, s).2.2
    · -- updating cell: it must be the diagonal one
      have hsk : s < k := hgt
      have hji : j = i := by
        rcases Nat.lt_trichotomy j i with hlt | heq | hgt2
        · exact absurd (le_trans hkcol (hG j hlt)) (by omega)
        · exact heq
        · exfalso
          have hnotmem : i ∉ j :: rest := by
            intro hmem
            rcases List.mem_cons.mp hmem with heq2 | hmem2
            · omega
            · have := (List.pairwise_cons.mp hsort).1 i hmem2
              omega
          rcases hDiag with h | h
          · exact hnotmem h
          · have := le_trans hkrow h
            omega
      have hkeq : k = runv x i := hkdiag hji
      subst hji
      rw [if_pos hgt]
      have hkle : k ≤ j + 1 := by
        rw [hkeq]
        exact runv_le x j
      obtain ⟨row', d', s', heq, hds', hs', hG', hrv', hr1, hr2, hr3⟩ :=
        ih (fun y hy => hsub y (List.mem_cons_of_mem j hy))
          (List.pairwise_cons.mp hsort).2
          (fun y => if y = j then k else newRow y) (j + 1 - k) k
          (by
            intro y
            show (if y = j then k else newRow y) ≤ runv x y
            by_cases hyj : y = j
            · rw [if_pos hyj, hyj, hkeq]
            · rw [if_neg hyj]; exact hN1 y)
          (by
            intro y
            show (if y = j then k else newRow y) ≤ runv x j
            by_cases hyj : y = j
            · rw [if_pos hyj, hkeq]
            · rw [if_neg hyj]; exact hN2 y)
          (by omega)
          (fun y hy => le_trans (hG y hy) (le_of_lt hsk))
          (Or.inr (le_of_eq hkeq.symm))
          (Or.inr (by
            show (if j = j then k else newRow j) = runv x j
            rw [if_pos rfl, hkeq]))
      exact ⟨row', d', s', heq, hds', le_trans (le_of_lt hsk) hs', hG', hrv', hr1, hr2, hr3⟩
    · -- non-updating cell: the best is unchanged
      rw [if_neg hgt]
      have hks : k ≤ s := not_lt.mp hgt
      obtain ⟨row', d', s', heq, hds', hs', hG', hrv', hr1, hr2, hr3⟩ :=
        ih (fun y hy => hsub y (List.mem_cons_of_mem j hy))
          (List.pairwise_cons.mp hsort).2
          (fun y => if y = j then k else newRow y) d s
          (by
            intro y
            show (if y = j then k else newRow y) ≤ runv x y
            by_cases hyj : y = j
            · rw [if_pos hyj, hyj]; exact hkcol
            · rw [if_neg hyj]; exact hN1 y)
          (by
            intro y
            show (if y = j then k else newRow y) ≤ runv x i
            by_cases hyj : y = j
            · rw [if_pos hyj]; exact hkrow
            · rw [if_neg hyj]; exact hN2 y)
          hds hG
          (by
            by_cases hji : i = j
            · refine Or.inr ?_
              have := hkdiag hji.symm
              omega
            · rcases hDiag with h | h
              · rcases List.mem_cons.mp h with h2 | h2
                · exact absurd h2 hji
                · exact Or.inl h2
              · exact Or.inr h)
          (by
            by_cases hji : i = j
            · refine Or.inr ?_
              show (if i = j then k else newRow i) = runv x i
              rw [if_pos hji, hkdiag hji.symm]
            · rcases hNi with h | h
              · rcases List.mem_cons.mp h with h2 | h2
                · exact absurd h2 hji
                · exact Or.inl h2
              · refine Or.inr ?_
                show (if i = j then k else newRow i) = runv x i
                rw [if_neg hji]; exact h)
      exact ⟨row', d', s', heq, hds', hs', hG', hrv', hr1, hr2, hr3⟩

theorem flmOuter_cons (a : List Char) (b2j : Char → List Nat) (blo bhi i : Nat)
    (rest : List Nat) (row : Nat → Nat) (best : BestT) :
    flmOuter a b2j blo bhi (i :: rest) row best =
      flmOuter a b2j blo bhi rest
        (flmInner i blo bhi row (b2j (a.getD i ' ')) (fun _ => 0) best).1
        (flmInner i blo bhi row (b2j (a.getD i ' ')) (fun _ => 0) best).2 := rfl

/-- Outer-loop invariant for the self-match: the best triple stays
diagonal and within bounds through all remaining rows. -/
theorem flmOuter_self (x : List Char) :
    ∀ (m i0 : Nat), i0 + m = x.length →
      ∀ (prevRow : Nat → Nat) (rprev d s : Nat),
        (∀ j, prevRow j ≤ runv x j) →
        (∀ j, prevRow j ≤ rprev) →
        (if i0 = 0 then 0 else prevRow (i0 - 1)) = rprev →
        (if i0 = 0 then 0 else runv x (i0 - 1)) = rprev →
        d + s ≤ x.length →
        (∀ j, j < i0 → runv x j ≤ s) →
        ∃ d' s',
          flmOuter x (b2jFn x) 0 x.length (List.range' i0 m) prevRow (d, d, s) =
            (d', d', s') ∧ d' + s' ≤ x.length := by
  intro m
  induction m with
  | zero =>
    intro i0 hsum prevRow rprev d s hA hB hC hR hds hG
    exact ⟨d, s, rfl, hds⟩
  | succ m ih =>
    intro i0 hsum prevRow rprev d s hA hB hC hR hds hG
    have hi : i0 < x.length := by omega
    rw [List.range'_succ, flmOuter_cons]
    by_cases hunpi : unpB x i0 = true
    · have himem : i0 ∈ b2jFn x (x.getD i0 ' ') := mem_of_unpB hunpi
      obtain ⟨row', d', s', heq, hds', hs', hG', hrv', hr1, hr2, hr3⟩ :=
        flmInner_self x i0 hi prevRow rprev hA hB hC hR
          (b2jFn x (x.getD i0 ' ')) (fun y hy => hy) (b2jFn_pairwise x _)
          (fun _ => 0) d s (fun j => Nat.zero_le _) (fun j => Nat.zero_le _)
          hds hG (Or.inl himem) (Or.inl himem)
      rw [heq]
      exact ih (i0 + 1) (by omega) row' (runv x i0) d' s'
        hr1 hr2 (by simpa using hr3) (by simp) hds'
        (by
          intro j hj
          rcases Nat.lt_succ_iff_lt_or_eq.mp hj with h | h
          · exact hG' j h
          · subst h; exact hrv')
    · have hfalse : unpB x i0 = false := by
        cases h : unpB x i0
        · rfl
        · exact absurd h hunpi
      have hjs : b2jFn x (x.getD i0 ' ') = [] := b2jFn_eq_nil_of_not_unpB hi hfalse
      rw [hjs]
      have hrv0 : runv x i0 = 0 := by
        cases i0 with
        | zero => simp [runv, hfalse]
        | succ i' => simp [runv, hfalse]
      exact ih (i0 + 1) (by omega) (fun _ => 0) (runv x i0) d s
        (fun j => Nat.zero_le _) (fun j => Nat.zero_le _)
        (by simp [hrv0]) (by simp) hds
        (by
          intro j hj
          rcases Nat.lt_succ_iff_lt_or_eq.mp hj with h | h
          · exact hG j h
          · subst h; rw [hrv0]; exact Nat.zero_le s)

theorem flmExtendLeft_diag (x : List Char) :
    ∀ (fuel d s : Nat), d ≤ fuel → d + s ≤ x.length →
      flmExtendLeft x x 0 0 fuel (d, d, s) = (0, 0, d + s) := by
  intro fuel
  induction fuel with
  | zero =>
    intro d s hdf hds
    have hd0 : d = 0 := Nat.le_zero.mp hdf
    subst hd0
    rw [Nat.zero_add]
    rfl
  | succ fuel ih =>
    intro d s hdf hds
    cases d with
    | zero =>
      unfold flmExtendLeft
      rw [if_neg]
      · rw [Nat.zero_add]
      · intro h
        exact absurd h.1 (lt_irrefl 0)
    | succ d' =>
      unfold flmExtendLeft
      rw [if_pos]
      · simp only [Nat.add_sub_cancel]
        rw [ih d' (s + 1) (by omega) (by omega)]
        have harith : d' + (s + 1) = d' + 1 + s := by omega
        rw [harith]
      · refine ⟨Nat.succ_pos d', Nat.succ_pos d', rfl, by omega, by omega⟩

theorem flmExtendRight_diag (x : List Char) :
    ∀ (fuel k : Nat), k ≤ x.length → x.length - k ≤ fuel →
      flmExtendRight x x x.length x.length fuel (0, 0, k) = (0, 0, x.length) := by
  intro fuel
  induction fuel with
  | zero =>
    intro k hk hfk
    have : k = x.length := by omega
    subst this
    rfl
  | succ fuel ih =>
    intro k hk hfk
    by_cases hlt : k < x.length
    · unfold flmExtendRight
      rw [if_pos]
      · exact ih (k + 1) (by omega) (by omega)
      · exact ⟨by omega, by omega, rfl, by omega, by omega⟩
    · have : k = x.length := by omega
      subst this
      unfold flmExtendRight
      rw [if_neg]
      intro h
      omega

/-- find_longest_match on a sequence matched with itself over the full
windows returns the whole string: the dynamic program only ever takes a
diagonal best (an off-diagonal cell is dominated by the diagonal run it
repeats), and the non-junk extension loops then stretch the diagonal
best to the full length. -/
theorem findLongestMatch_self (x : List Char) :
    findLongestMatch x x (b2jFn x) 0 x.length 0 x.length = (0, 0, x.length) := by
  obtain ⟨d, s, hout, hds⟩ :=
    flmOuter_self x x.length 0 (by omega) (fun _ => 0) 0 0 0
      (fun j => Nat.zero_le _) (fun j => Nat.zero_le _) (by simp) (by simp)
      (by omega) (by omega)
  unfold findLongestMatch
  rw [List.drop_zero, List.range_eq_range', hout]
  show flmExtendRight x x x.length x.length x.length
    (flmExtendLeft x x 0 0 d (d, d, s)) = (0, 0, x.length)
  rw [flmExtendLeft_diag x d d s (le_refl d) hds]
  exact flmExtendRight_diag x x.length (d + s) hds (by omega)

theorem matchCount_self (x : List Char) : matchCount x x = x.length := by
  show matchTotal x x (b2jFn x) (x.length + 1) 0 x.length 0 x.length = x.length
  simp only [matchTotal]
  rw [findLongestMatch_self]
  by_cases hn : x.length = 0
  · simp [hn]
  · rw [if_neg hn]
    simp

theorem seqRatio_self (x : List Char) : seqRatio x x = 1 := by
  unfold seqRatio
  rw [matchCount_self]
  by_cases hn : x.length = 0
  · rw [if_pos (by omega)]
  · rw [if_neg (by omega)]
    have : (x.length : ℚ) ≠ 0 := by
      exact_mod_cast hn
    field_simp
    ring

/-- C9 (amended): the fuzzy similarity of two nonempty strings that
agree after lowercasing and trimming is exactly 1.0 (reflexivity and
case-insensitivity); symmetry, however, does not hold in general — see
the counterexample. -/
theorem C9_fuzzy_reflexive :
    ∀ s1 s2 : String, s1.isEmpty = false → s2.isEmpty = false →
      pyStrip (pyLower s1) = pyStrip (pyLower s2) → fuzzyMatch s1 s2 = 1 := by
  intro s1 s2 h1 h2 h3
  unfold fuzzyMatch
  rw [h1, h2]
  simp only [Bool.or_self, Bool.false_eq_true, if_false]
  rw [h3]
  exact seqRatio_self _

/-- Witness for C9 (amended): a mixed-case pair normalizing to the same
string has similarity 1. -/
theorem C9_fuzzy_reflexive_witness : fuzzyMatch " ABC" "abc " = 1 :=
  C9_fuzzy_reflexive " ABC" "abc " (by decide) (by decide) (by decide)

theorem inferFromFolder_path (root : PathT) (t : Track) :
    (inferFromFolder root t).path = t.path := by
  unfold inferFromFolder
  cases relativeTo (parentOf t.path) root with
  | none => rfl
  | some parts =>
    dsimp only
    split_ifs <;> rfl

theorem inferFromFolder_filename (root : PathT) (t : Track) :
    (inferFromFolder root t).filename = t.filename := by
  unfold inferFromFolder
  cases relativeTo (parentOf t.path) root with
  | none => rfl
  | some parts =>
    dsimp only
    split_ifs <;> rfl

theorem inferFromFolder_num (root : PathT) (t : Track) :
    (inferFromFolder root t).inferredTrackNumber = t.inferredTrackNumber := by
  unfold inferFromFolder
  cases relativeTo (parentOf t.path) root with
  | none => rfl
  | some parts =>
    dsimp only
    split_ifs <;> rfl

theorem inferFromFolder_title (root : PathT) (t : Track) :
    (inferFromFolder root t).inferredTitle = t.inferredTitle := by
  unfold inferFromFolder
  cases relativeTo (parentOf t.path) root with
  | none => rfl
  | some parts =>
    dsimp only
    split_ifs <;> rfl

theorem pyOrS_idem (a : Option String) (b : String) :
    pyOrS (some (pyOrS a b)) b = pyOrS a b := by
  cases a with
  | none =>
    simp only [pyOrS]
    split_ifs <;> simp_all
  | some s =>
    simp only [pyOrS]
    split_ifs <;> simp_all

theorem inferFromFolder_none (root : PathT) (t : Track)
    (hrel : relativeTo (parentOf t.path) root = none) :
    inferFromFolder root t = t := by
  unfold inferFromFolder
  rw [hrel]

theorem inferFromFolder_some (root : PathT) (t : Track) (parts : List String)
    (hrel : relativeTo (parentOf t.path) root = some parts) :
    inferFromFolder root t =
      if parts.length ≥ 2 then
        { t with inferredArtist := some (pyOrS t.inferredArtist (parts.getD 0 "")),
                 inferredAlbum := some (pyOrS t.inferredAlbum (parts.getD 1 "")) }
      else if parts.length = 1 then
        { t with inferredAlbum := some (pyOrS t.inferredAlbum (parts.getD 0 "")) }
      else t := by
  unfold inferFromFolder
  rw [hrel]

theorem inferFromFolder_idem (root : PathT) (t : Track) :
    inferFromFolder root (inferFromFolder root t) = inferFromFolder root t := by
  cases hrel : relativeTo (parentOf t.path) root with
  | none =>
    have h1 := inferFromFolder_none root t hrel
    rw [h1, h1]
  | some parts =>
    have h1 := inferFromFolder_some root t parts hrel
    by_cases hlen2 : parts.length ≥ 2
    · rw [h1, if_pos hlen2]
      have hrel' : relativeTo (parentOf ({ t with
          inferredArtist := some (pyOrS t.inferredArtist (parts.getD 0 "")),
          inferredAlbum := some (pyOrS t.inferredAlbum (parts.getD 1 "")) } : Track).path)
          root = some parts := hrel
      rw [inferFromFolder_some root _ parts hrel', if_pos hlen2]
      simp [pyOrS_idem]
    · by_cases hlen1 : parts.length = 1
      · rw [h1, if_neg hlen2, if_pos hlen1]
        have hrel' : relativeTo (parentOf ({ t with
            inferredAlbum := some (pyOrS t.inferredAlbum (parts.getD 0 "")) } : Track).path)
            root = some parts := hrel
        rw [inferFromFolder_some root _ parts hrel', if_neg hlen2, if_pos hlen1]
        simp [pyOrS_idem]
      · rw [h1, if_neg hlen2, if_neg hlen1]
        rw [h1, if_neg hlen2, if_neg hlen1]

theorem track_set_num_title (t : Track) (a : Option Int) (b : Option String)
    (ha : t.inferredTrackNumber = a) (hb : t.inferredTitle = b) :
    { t with inferredTrackNumber := a, inferredTitle := b } = t := by
  cases t
  simp_all

theorem track_set_title (t : Track) (b : Option String)
    (hb : t.inferredTitle = b) :
    { t with inferredTitle := b } = t := by
  cases t
  simp_all

theorem applyCaps_path (pt : PatternType) (root : PathT)
    (caps : List (Nat × String)) (t : Track) :
    (applyCaps pt root caps t).path = t.path := by
  cases pt <;>
    first
      | rfl
      | (simp only [applyCaps]; split_ifs <;> simp [inferFromFolder_path])

theorem applyCaps_filename (pt : PatternType) (root : PathT)
    (caps : List (Nat × String)) (t : Track) :
    (applyCaps pt root caps t).filename = t.filename := by
  cases pt <;>
    first
      | rfl
      | (simp only [applyCaps]; split_ifs <;> simp [inferFromFolder_filename])

theorem applyCaps_idem (pt : PatternType) (root : PathT)
    (caps : List (Nat × String)) (t : Track) :
    applyCaps pt root caps (applyCaps pt root caps t) = applyCaps pt root caps t := by
  cases pt
  case trackArtistTitle =>
    simp only [applyCaps]
    split_ifs with h
    · simp
    · rfl
  case trackTitle =>
    simp only [applyCaps]
    split_ifs with h
    · rw [track_set_num_title _ _ _
        (by rw [inferFromFolder_num]) (by rw [inferFromFolder_title])]
      exact inferFromFolder_idem root _
    · rfl
  case artistAlbumTitle =>
    simp only [applyCaps]
    split_ifs with h
    · simp
    · rfl
  case artistTitle =>
    simp only [applyCaps]
    split_ifs with h
    · simp
    · rfl
  case titleOnly =>
    simp only [applyCaps]
    split_ifs with h
    · rw [track_set_title _ _ (by rw [inferFromFolder_title])]
      exact inferFromFolder_idem root _
    · rfl
  all_goals rfl

theorem applyTrack_path (pt : PatternType) (root : PathT) (t : Track) :
    (applyTrack pt root t).path = t.path := by
  unfold applyTrack
  cases firstSome (fun ats => reGroups ats (stemOf t)) (filenamePatterns pt) with
  | none => rfl
  | some caps => exact applyCaps_path pt root caps t

theorem applyTrack_filename (pt : PatternType) (root : PathT) (t : Track) :
    (applyTrack pt root t).filename = t.filename := by
  unfold applyTrack
  cases firstSome (fun ats => reGroups ats (stemOf t)) (filenamePatterns pt) with
  | none => rfl
  | some caps => exact applyCaps_filename pt root caps t

theorem stemOf_applyTrack (pt : PatternType) (root : PathT) (t : Track) :
    stemOf (applyTrack pt root t) = stemOf t := by
  unfold stemOf
  rw [applyTrack_path]

theorem applyTrack_idem (pt : PatternType) (root : PathT) (t : Track) :
    applyTrack pt root (applyTrack pt root t) = applyTrack pt root t := by
  conv_lhs => rw [applyTrack]
  rw [stemOf_applyTrack]
  cases hm : firstSome (fun ats => reGroups ats (stemOf t)) (filenamePatterns pt) with
  | none => rfl
  | some caps =>
    have hinner : applyTrack pt root t = applyCaps pt root caps t := by
      unfold applyTrack
      rw [hm]
    rw [hinner]
    exact applyCaps_idem pt root caps t

theorem patternBucket_map (pt : PatternType) (g : Track → Track)
    (hg : ∀ t, (g t).path = t.path) (ts : List Track) :
    patternBucket pt (ts.map g) = (patternBucket pt ts).map g := by
  unfold patternBucket
  rw [List.filter_map]
  congr 1
  apply List.filter_congr
  intro t _
  simp [Function.comp, stemOf, hg]

theorem isEmpty_map (g : α → β) (l : List α) : (l.map g).isEmpty = l.isEmpty := by
  cases l <;> rfl

theorem detectFilenamePatterns_map (g : Track → Track)
    (hgp : ∀ t, (g t).path = t.path) (hgf : ∀ t, (g t).filename = t.filename)
    (ts : List Track) :
    detectFilenamePatterns (ts.map g) = detectFilenamePatterns ts := by
  unfold detectFilenamePatterns
  rw [List.length_map]
  dsimp only
  congr 1
  apply List.filterMap_congr
  intro pt _
  rw [patternBucket_map pt g hgp]
  rw [isEmpty_map]
  by_cases hbe : (patternBucket pt ts).isEmpty = true
  · rw [hbe]
    simp
  · rw [Bool.not_eq_true] at hbe
    rw [hbe]
    simp only [Bool.false_eq_true, if_false, List.length_map, List.map_take, List.map_map]
    have hex : (patternBucket pt ts).map ((fun t => t.filename) ∘ g) =
        (patternBucket pt ts).map (fun t => t.filename) :=
      List.map_congr_left (fun a _ => hgf a)
    rw [hex]

/-- Running analyze a second time on the library returned by the first
run leaves the library unchanged: classification depends only on paths,
which inference never modifies, and the per-track inference write-back
is idempotent. -/
theorem analyze_idem (lib : Library) :
    (analyze (analyze lib).2).2 = (analyze lib).2 := by
  by_cases hemp : lib.tracks.isEmpty
  · have h1 : analyze lib = ({}, lib) := by
      unfold analyze
      rw [if_pos hemp]
    rw [h1]
    show (analyze lib).2 = lib
    rw [h1]
  · have h1 : (analyze lib).2 =
        { lib with tracks := applyInferences lib (detectFilenamePatterns lib.tracks) } := by
      unfold analyze
      rw [if_neg hemp]
    cases hpm : primaryFilenamePattern (detectFilenamePatterns lib.tracks) with
    | none =>
      have htr : applyInferences lib (detectFilenamePatterns lib.tracks) = lib.tracks := by
        unfold applyInferences
        rw [hpm]
      have hlib1 : (analyze lib).2 = lib := by
        rw [h1, htr]
      rw [hlib1]
      exact hlib1
    | some pm =>
      have htr : applyInferences lib (detectFilenamePatterns lib.tracks) =
          lib.tracks.map (applyTrack pm.patternType lib.rootPath) := by
        unfold applyInferences
        rw [hpm]
      have hlib1 : (analyze lib).2 =
          { lib with tracks := lib.tracks.map (applyTrack pm.patternType lib.rootPath) } := by
        rw [h1, htr]
      rw [hlib1]
      have hemp1 : (lib.tracks.map (applyTrack pm.patternType lib.rootPath)).isEmpty = false := by
        rw [isEmpty_map]
        cases h : lib.tracks.isEmpty
        · rfl
        · exact absurd h hemp
      unfold analyze
      rw [if_neg (by rw [hemp1]; exact Bool.false_ne_true)]
      show ({ lib with
          tracks := applyInferences
            { lib with tracks := lib.tracks.map (applyTrack pm.patternType lib.rootPath) }
            (detectFilenamePatterns (lib.tracks.map (applyTrack pm.patternType lib.rootPath))) } : Library) =
        { lib with tracks := lib.tracks.map (applyTrack pm.patternType lib.rootPath) }
      rw [detectFilenamePatterns_map (applyTrack pm.patternType lib.rootPath)
        (applyTrack_path pm.patternType lib.rootPath)
        (applyTrack_filename pm.patternType lib.rootPath)]
      unfold applyInferences
      rw [hpm]
      show ({ lib with
          tracks := (lib.tracks.map (applyTrack pm.patternType lib.rootPath)).map
            (applyTrack pm.patternType lib.rootPath) } : Library) = _
      rw [List.map_map]
      have hmap : lib.tracks.map
          (applyTrack pm.patternType lib.rootPath ∘ applyTrack pm.patternType lib.rootPath) =
          lib.tracks.map (applyTrack pm.patternType lib.rootPath) :=
        List.map_congr_left (fun t _ => applyTrack_idem pm.patternType lib.rootPath t)
      rw [hmap]

/-- C8: re-running pattern detection on the same Library is idempotent
for the inferred fields — after the second analyze pass every track has
the same inferred title, artist, album and track number as after the
first pass. -/
theorem C8_analyze_idempotent :
    ∀ lib : Library,
      ((analyze (analyze lib).2).2).tracks.map
        (fun t => (t.inferredTitle, t.inferredArtist, t.inferredAlbum,
                   t.inferredTrackNumber)) =
      ((analyze lib).2).tracks.map
        (fun t => (t.inferredTitle, t.inferredArtist, t.inferredAlbum,
                   t.inferredTrackNumber)) := by
  intro lib
  rw [analyze_idem]

/-- C1 counterexample: with a search title and album supplied but no
artist, a perfect fuzzy match on exactly the supplied fields yields
confidence 6/7, not 1.0: the divisor is the sum of the first two
entries of the weight list, 2.0 + 1.5 = 3.5, not 2.0 + 1.0 = 3.0. -/
theorem C1_counterexample :
    calculateConfidence "a" "" "b" "a" none (some "b") = 6 / 7 ∧
    (6 / 7 : ℚ) ≠ 1 := by
  constructor
  · have h1 : fuzzyMatch "a" "a" = 1 := by
      rw [fuzzyMatch_eval _ _ 1 1 1 (by decide) (by decide) (by decide) (by decide)]
      norm_num
    have h2 : fuzzyMatch "b" "b" = 1 := by
      rw [fuzzyMatch_eval _ _ 1 1 1 (by decide) (by decide) (by decide) (by decide)]
      norm_num
    have hb : "b".isEmpty = false := by decide
    unfold calculateConfidence
    simp [optTruthy, h1, h2, hb]
    norm_num [min_def]
  · norm_num

/-- C1 (amended): the confidence is the weighted sum of the included
per-field similarities divided by the sum of the first len(scores)
weights of [2.0, 1.5, 1.0] and capped at 1.0; the divisor therefore
equals the sum of the included weights except when an album is supplied
without an artist, where it is 2.0 + 1.5 = 3.5 instead of 3.0, so a
perfect title-and-album match without an artist scores 6/7. -/
theorem C1_confidence_divisor :
    (∀ rt ra rb st : String, ∀ sa sb : Option String,
      calculateConfidence rt ra rb st sa sb =
        min ((fuzzyMatch rt st * 2
              + (if optTruthy sa then fuzzyMatch ra (sa.getD "") * (3 / 2) else 0)
              + (if optTruthy sb then fuzzyMatch rb (sb.getD "") else 0))
             / (if optTruthy sa && optTruthy sb then 9 / 2
                else if optTruthy sa || optTruthy sb then 7 / 2 else 2)) 1) ∧
    (∀ rt ra rb st : String, ∀ sb : String, optTruthy (some sb) = true →
      fuzzyMatch rt st = 1 → fuzzyMatch rb sb = 1 →
      calculateConfidence rt ra rb st none (some sb) = 6 / 7) := by
  constructor
  · intro rt ra rb st sa sb
    unfold calculateConfidence
    cases hsa : optTruthy sa <;> cases hsb : optTruthy sb <;>
      simp [hsa, hsb] <;> ring_nf
  · intro rt ra rb st sb hsb ht hb
    unfold calculateConfidence
    simp [optTruthy] at hsb
    simp [optTruthy, hsb, ht, hb]
    norm_num [min_def]

/-- Witness for C1 (amended) at a concrete perfect title-and-album
match. -/
theorem C1_confidence_divisor_witness :
    calculateConfidence "a" "" "b" "a" none (some "b") = 6 / 7 := by
  refine C1_confidence_divisor.2 "a" "" "b" "a" "b" (by decide) ?_ ?_
  · rw [fuzzyMatch_eval _ _ 1 1 1 (by decide) (by decide) (by decide) (by decide)]
    norm_num
  · rw [fuzzyMatch_eval _ _ 1 1 1 (by decide) (by decide) (by decide) (by decide)]
    norm_num

end Tunesleuth
